import Mathlib

/-!
Verification of the behavioural core of the happy-parking simulation:
the parking-lot space allocator (`ParkingLot`), the vehicle state machine
(`Vehicle`), and the simulation tick with its statistics snapshot
(`ParkingSimulation.updateStats`).  The definitions below are a shallow
embedding of the JavaScript source: numbers are modelled as real numbers,
THREE.js `Vector3` values as `Vec3`, and object references into the
allocator's `spaces` array as indices (`Target.lot`); the synthetic exit
object created by `Vehicle.leaveParking` is `Target.exitAt`, which is never
a member of the allocator's collection (reference inequality).
-/

namespace HappyParking

noncomputable section

/-- JavaScript `x || d` on numbers: `0` is falsy and selects the default. -/
def jsOrReal (x d : ℝ) : ℝ := if x = 0 then d else x

/-- JavaScript `options.f || d` for an optional numeric field. -/
def orDefaultReal (x : Option ℝ) (d : ℝ) : ℝ :=
  match x with
  | some v => jsOrReal v d
  | none => d

/-- JavaScript `options.f || d` for an optional count field. -/
def orDefaultNat (x : Option ℕ) (d : ℕ) : ℕ :=
  match x with
  | some v => if v = 0 then d else v
  | none => d

/-- `Math.sign`. -/
def jsign (x : ℝ) : ℝ := if 0 < x then 1 else if x < 0 then -1 else 0

/-- `Math.atan2 y x`, as the principal argument of the complex number `x + y i`. -/
def atan2 (y x : ℝ) : ℝ := Complex.arg ⟨x, y⟩

/-- THREE.js `Vector3`. -/
@[ext]
structure Vec3 where
  x : ℝ
  y : ℝ
  z : ℝ

namespace Vec3

/-- `Vector3.add` (componentwise). -/
def add (a b : Vec3) : Vec3 := ⟨a.x + b.x, a.y + b.y, a.z + b.z⟩

/-- `Vector3.sub` (componentwise). -/
def sub (a b : Vec3) : Vec3 := ⟨a.x - b.x, a.y - b.y, a.z - b.z⟩

/-- `Vector3.multiplyScalar`. -/
def smul (s : ℝ) (v : Vec3) : Vec3 := ⟨s * v.x, s * v.y, s * v.z⟩

instance : Add Vec3 := ⟨add⟩
instance : Sub Vec3 := ⟨sub⟩
instance : SMul ℝ Vec3 := ⟨smul⟩

@[simp] theorem add_x (a b : Vec3) : (a + b).x = a.x + b.x := rfl
@[simp] theorem add_y (a b : Vec3) : (a + b).y = a.y + b.y := rfl
@[simp] theorem add_z (a b : Vec3) : (a + b).z = a.z + b.z := rfl
@[simp] theorem sub_x (a b : Vec3) : (a - b).x = a.x - b.x := rfl
@[simp] theorem sub_y (a b : Vec3) : (a - b).y = a.y - b.y := rfl
@[simp] theorem sub_z (a b : Vec3) : (a - b).z = a.z - b.z := rfl
@[simp] theorem smul_x (s : ℝ) (v : Vec3) : (s • v).x = s * v.x := rfl
@[simp] theorem smul_y (s : ℝ) (v : Vec3) : (s • v).y = s * v.y := rfl
@[simp] theorem smul_z (s : ℝ) (v : Vec3) : (s • v).z = s * v.z := rfl

/-- `Vector3.length`: the Euclidean norm. -/
def length (v : Vec3) : ℝ := Real.sqrt (v.x ^ 2 + v.y ^ 2 + v.z ^ 2)

/-- `Vector3.distanceTo`. -/
def distanceTo (a b : Vec3) : ℝ := (a.sub b).length

/-- `Vector3.normalize`: `divideScalar (length || 1)`; the zero vector stays zero. -/
def normalize (v : Vec3) : Vec3 := (1 / jsOrReal v.length 1) • v

/-- Rotation about the y-axis (`applyAxisAngle` with axis `(0,1,0)`). -/
def rotateY (θ : ℝ) (v : Vec3) : Vec3 :=
  ⟨v.x * Real.cos θ + v.z * Real.sin θ, v.y, -v.x * Real.sin θ + v.z * Real.cos θ⟩

@[simp] theorem smul_zero_left (v : Vec3) : (0 : ℝ) • v = (⟨0, 0, 0⟩ : Vec3) := by
  ext <;> simp [HSMul.hSMul, SMul.smul, smul]

@[simp] theorem add_zero_vec (v : Vec3) : v + (⟨0, 0, 0⟩ : Vec3) = v := by
  ext <;> simp

theorem rotateY_unitZ (θ : ℝ) :
    rotateY θ ⟨0, 0, 1⟩ = ⟨Real.sin θ, 0, Real.cos θ⟩ := by
  simp [rotateY]

theorem rotateY_negUnitZ (θ : ℝ) :
    rotateY θ ⟨0, 0, -1⟩ = ⟨-Real.sin θ, 0, -Real.cos θ⟩ := by
  ext <;> simp [rotateY]

end Vec3

/-- Helper for evaluating concrete square roots: `√a = b` when `b ≥ 0` and `b² = a`. -/
theorem sqrt_eq_of_sq (a b : ℝ) (hb : 0 ≤ b) (h : b ^ 2 = a) : Real.sqrt a = b := by
  subst h
  exact Real.sqrt_sq hb

theorem atan2_zero_one : atan2 0 1 = 0 := by
  have h : (⟨1, 0⟩ : ℂ) = (1 : ℂ) := by
    apply Complex.ext <;> simp
  simp [atan2, h]

@[simp] theorem jsign_zero : jsign 0 = 0 := by simp [jsign]

/-- A parking space record as pushed by `ParkingLot.createParkingSpaces`;
`tint` models the colour of the space's mesh material. -/
structure Space where
  row : ℕ
  col : ℕ
  side : ℕ
  position : Vec3
  rotation : ℝ
  occupied : Bool
  tint : ℕ

/-- A reference held in `Vehicle.targetSpace`: either a reference to the
allocator's `spaces[i]` (`lot i`) or the fresh off-lot exit object created by
`leaveParking` (`exitAt`), which is never a member of the allocator's array. -/
inductive Target where
  | lot (i : ℕ)
  | exitAt (position : Vec3) (rotation : ℝ)

/-- The `ParkingLot` space allocator. -/
structure ParkingLot where
  rows : ℕ
  columns : ℕ
  spaceWidth : ℝ
  spaceLength : ℝ
  aisleWidth : ℝ
  spaces : List Space

/-- The z-offset of a side's block of spaces (`createParkingSpaces`). -/
def zOffset (aisleWidth spaceLength : ℝ) (side : ℕ) : ℝ :=
  if side = 0 then -aisleWidth / 2 - spaceLength / 2 else aisleWidth / 2 + spaceLength / 2

/-- The facing direction of a side's spaces (`createParkingSpaces`). -/
def facingDirection (side : ℕ) : ℝ := if side = 0 then Real.pi else 0

/-- `ParkingLot.createParkingSpaces`: two mirrored `rows × columns` blocks. -/
def createParkingSpaces (rows columns : ℕ) (spaceWidth spaceLength aisleWidth totalWidth : ℝ) :
    List Space :=
  (List.range 2).flatMap fun side =>
    (List.range rows).flatMap fun row =>
      (List.range columns).map fun col =>
        { row := row
          col := col
          side := side
          position :=
            ⟨(col : ℝ) * spaceWidth - totalWidth / 2 + spaceWidth / 2, 0,
              zOffset aisleWidth spaceLength side +
                (row : ℝ) * spaceLength * (if side = 0 then -1 else 1)⟩
          rotation := facingDirection side
          occupied := false
          tint := 0x666666 }

/-- The `ParkingLot` constructor with its `options.f || default` fallbacks. -/
def mkParkingLot (rows? columns? : Option ℕ) (spaceWidth? spaceLength? aisleWidth? : Option ℝ) :
    ParkingLot :=
  let rows := orDefaultNat rows? 3
  let columns := orDefaultNat columns? 5
  let spaceWidth := orDefaultReal spaceWidth? 3
  let spaceLength := orDefaultReal spaceLength? 6
  let aisleWidth := orDefaultReal aisleWidth? 8
  let totalWidth := (columns : ℝ) * spaceWidth
  { rows := rows
    columns := columns
    spaceWidth := spaceWidth
    spaceLength := spaceLength
    aisleWidth := aisleWidth
    spaces := createParkingSpaces rows columns spaceWidth spaceLength aisleWidth totalWidth }

namespace ParkingLot

/-- `ParkingLot.getTotalSpaces`. -/
def getTotalSpaces (lot : ParkingLot) : ℕ := lot.spaces.length

/-- One step of the scan in `findAvailableSpace`: keep the closest unoccupied
space seen so far (`none` models `closestSpace = null`, distance `Infinity`). -/
def findStep (p : Vec3) (acc : Option (ℕ × ℝ)) (is : ℕ × Space) : Option (ℕ × ℝ) :=
  if is.2.occupied then acc
  else
    let d := Vec3.distanceTo p is.2.position
    match acc with
    | none => some (is.1, d)
    | some (j, cd) => if d < cd then some (is.1, d) else some (j, cd)

/-- `ParkingLot.findAvailableSpace`: linear scan returning the closest
unoccupied space (as a reference, i.e. an index), or `none`. -/
def findAvailableSpace (lot : ParkingLot) (p : Vec3) : Option ℕ :=
  (lot.spaces.enum.foldl (findStep p) none).map (·.1)

/-- `ParkingLot.setSpaceOccupied`: sets the flag (and the visual tint) iff the
given reference is non-null and a member of `spaces`. -/
def setSpaceOccupied (lot : ParkingLot) (t : Option Target) (isOccupied : Bool) : ParkingLot :=
  match t with
  | some (Target.lot i) =>
      match lot.spaces.get? i with
      | some s =>
          { lot with
            spaces := lot.spaces.set i
              { s with occupied := isOccupied, tint := if isOccupied then 0x555555 else 0x666666 } }
      | none => lot
  | some (Target.exitAt _ _) => lot
  | none => lot

end ParkingLot

/-- `'car'` or `'truck'`. -/
inductive VType where
  | car
  | truck
deriving DecidableEq

/-- The behavioural states `'moving'`, `'waiting'`, `'parked'`. -/
inductive VState where
  | moving
  | waiting
  | parked
deriving DecidableEq

/-- A vehicle's semantic state; `pos`/`rot` model `mesh.position` and
`mesh.rotation.y`, which are the fields read and written by `update`. -/
@[ext]
structure Vehicle where
  vtype : VType
  pos : Vec3
  rot : ℝ
  state : VState
  target : Option Target
  waitTime : ℝ
  speed : ℝ

/-- The `Vehicle` constructor (with its `options.f || default` fallbacks). -/
def mkVehicle (type? : Option VType) (position? : Option Vec3) (rotation? : Option ℝ) : Vehicle :=
  { vtype := type?.getD VType.car
    pos := position?.getD ⟨0, 0, 0⟩
    rot := orDefaultReal rotation? 0
    state := VState.moving
    target := none
    waitTime := 0
    speed := 0 }

namespace Vehicle

/-- `this.maxSpeed`, assigned from the type in the constructor and never mutated. -/
def maxSpeed (v : Vehicle) : ℝ := if v.vtype = VType.car then 5 else 3

/-- `this.acceleration`, a constructor constant. -/
def acceleration (_ : Vehicle) : ℝ := 2

/-- `this.turnSpeed`, a constructor constant. -/
def turnSpeed (_ : Vehicle) : ℝ := Real.pi / 4

/-- `this.state === 'parked'`. -/
def isParked (v : Vehicle) : Bool := v.state = VState.parked

/-- `this.state === 'moving'`. -/
def isMoving (v : Vehicle) : Bool := v.state = VState.moving

/-- `Vehicle.getWaitTime`. -/
def getWaitTime (v : Vehicle) : ℝ := if v.state = VState.waiting then v.waitTime else 0

end Vehicle

/-- Dereference `targetSpace.position` through the allocator. -/
def targetPosition (lot : ParkingLot) : Target → Vec3
  | Target.lot i => ((lot.spaces.get? i).map (·.position)).getD ⟨0, 0, 0⟩
  | Target.exitAt p _ => p

/-- Dereference `targetSpace.rotation` through the allocator. -/
def targetRotation (lot : ParkingLot) : Target → ℝ
  | Target.lot i => ((lot.spaces.get? i).map (·.rotation)).getD 0
  | Target.exitAt _ r => r

namespace Vehicle

/-- `Vehicle.findParkingSpace`: query the allocator; on success keep/acquire the
target and stay `moving`, otherwise become `waiting` (the target is not cleared). -/
def findParkingSpace (v : Vehicle) (lot : ParkingLot) : Vehicle :=
  match lot.findAvailableSpace v.pos with
  | some i => { v with target := some (Target.lot i), state := VState.moving }
  | none => { v with state := VState.waiting }

/-- The local `dirToTarget` of `updateMoving`: the cloned target position
after the in-place `sub(this.mesh.position).normalize()`. -/
def dirToTarget (lot : ParkingLot) (v : Vehicle) (t : Target) : Vec3 :=
  ((targetPosition lot t).sub v.pos).normalize

/-- The local `currentDirection` of `updateMoving`: the `+z` axis rotated by
the vehicle's heading. -/
def currentDirection (v : Vehicle) : Vec3 := Vec3.rotateY v.rot ⟨0, 0, 1⟩

/-- The local `angleDiff` of `updateMoving`: the signed planar angle computed
with the 2D cross/dot `atan2` formulation. -/
def angleDiff (lot : ParkingLot) (v : Vehicle) (t : Target) : ℝ :=
  atan2
    ((dirToTarget lot v t).x * (currentDirection v).z -
      (dirToTarget lot v t).z * (currentDirection v).x)
    ((dirToTarget lot v t).x * (currentDirection v).x +
      (dirToTarget lot v t).z * (currentDirection v).z)

/-- The local `turnAmount` of `updateMoving`: the angle clamped to
`turnSpeed * dt`, signed. -/
def turnAmount (lot : ParkingLot) (v : Vehicle) (t : Target) (dt : ℝ) : ℝ :=
  min |angleDiff lot v t| (v.turnSpeed * dt) * jsign (angleDiff lot v t)

/-- The local `distanceToTarget` of `updateMoving`.  Because the source
mutates the cloned `targetPos` in place (`sub(...).normalize()` return the
same object), this is `position.distanceTo(dirToTarget)` — the distance from
the vehicle to the *unit direction vector*, not to the target. -/
def distanceToTarget (lot : ParkingLot) (v : Vehicle) (t : Target) : ℝ :=
  v.pos.distanceTo (dirToTarget lot v t)

/-- `Vehicle.updateMoving`.  The snap branch reads `targetSpace.position`
directly, which is unmutated; the branch conditions use the aliased
`distanceToTarget` above. -/
def updateMoving (v : Vehicle) (lot : ParkingLot) (dt : ℝ) : Vehicle × ParkingLot :=
  match v.target with
  | none => (v.findParkingSpace lot, lot)
  | some t =>
      if distanceToTarget lot v t < 1 then
        let v1 : Vehicle :=
          { v with
            speed := 0
            state := VState.parked
            pos := targetPosition lot t
            rot := targetRotation lot t }
        ({ v1 with pos := v1.pos + (v1.speed * dt) • Vec3.rotateY v1.rot ⟨0, 0, -1⟩ },
          lot.setSpaceOccupied (some t) true)
      else if distanceToTarget lot v t < 5 then
        let v1 : Vehicle :=
          { v with
            rot := v.rot + turnAmount lot v t dt
            speed := max (v.speed - v.acceleration * dt) 0.5 }
        ({ v1 with pos := v1.pos + (v1.speed * dt) • Vec3.rotateY v1.rot ⟨0, 0, -1⟩ }, lot)
      else
        let v1 : Vehicle :=
          { v with
            rot := v.rot + turnAmount lot v t dt
            speed := min (v.speed + v.acceleration * dt) v.maxSpeed }
        ({ v1 with pos := v1.pos + (v1.speed * dt) • Vec3.rotateY v1.rot ⟨0, 0, -1⟩ }, lot)

/-- `Vehicle.leaveParking`: release the held space, retarget to the fresh
off-lot exit object, and start moving; a no-op without a target. -/
def leaveParking (v : Vehicle) (lot : ParkingLot) : Vehicle × ParkingLot :=
  match v.target with
  | some t =>
      ({ v with target := some (Target.exitAt ⟨-50, 0, 0⟩ 0), state := VState.moving },
        lot.setSpaceOccupied (some t) false)
  | none => (v, lot)

/-- `Vehicle.update`; `departNow` models the draw `Math.random() < 0.001`. -/
def update (v : Vehicle) (dt : ℝ) (lot : ParkingLot) (departNow : Bool) : Vehicle × ParkingLot :=
  match v.state with
  | VState.moving => v.updateMoving lot dt
  | VState.waiting =>
      let v1 := { v with waitTime := v.waitTime + dt }
      if v1.waitTime > 2 then ({ v1.findParkingSpace lot with waitTime := 0 }, lot)
      else (v1, lot)
  | VState.parked => if departNow then v.leaveParking lot else (v, lot)

end Vehicle

/-- The stats snapshot consumed by the UI. -/
structure Stats where
  occupiedSpaces : ℕ
  totalSpaces : ℕ
  totalVehicles : ℕ
  movingVehicles : ℕ
  parkedVehicles : ℕ
  waitingVehicles : ℕ
  averageWaitTime : ℝ

/-- One pass of the `forEach` in `updateStats`: bump the (parked, moving,
waiting) tallies and accumulate `getWaitTime`. -/
def statsTally (acc : ℕ × ℕ × ℕ × ℝ) (v : Vehicle) : ℕ × ℕ × ℕ × ℝ :=
  let counts : ℕ × ℕ × ℕ :=
    if v.isParked then (acc.1 + 1, acc.2.1, acc.2.2.1)
    else if v.isMoving then (acc.1, acc.2.1 + 1, acc.2.2.1)
    else (acc.1, acc.2.1, acc.2.2.1 + 1)
  (counts.1, counts.2.1, counts.2.2, acc.2.2.2 + v.getWaitTime)

/-- `ParkingSimulation.updateStats`: recompute the snapshot from the vehicles. -/
def updateStats (vehicles : List Vehicle) (prev : Stats) : Stats :=
  let r := vehicles.foldl statsTally (0, 0, 0, 0)
  { prev with
    occupiedSpaces := r.1
    movingVehicles := r.2.1
    parkedVehicles := r.1
    waitingVehicles := r.2.2.1
    averageWaitTime := if 0 < vehicles.length then r.2.2.2 / (vehicles.length : ℝ) else 0 }

/-- The simulation state owned by `ParkingSimulation`. -/
structure SimState where
  lot : ParkingLot
  vehicles : List Vehicle
  stats : Stats

/-- The `forEach` over vehicles in `ParkingSimulation.update`: each vehicle
updates in order against the shared allocator; `deps` supplies one departure
draw per vehicle. -/
def tickVehicles (dt : ℝ) : ParkingLot → List Vehicle → List Bool → List Vehicle × ParkingLot
  | lot, [], _ => ([], lot)
  | lot, v :: vs, deps =>
      let p := v.update dt lot (deps.headD false)
      let q := tickVehicles dt p.2 vs deps.tail
      (p.1 :: q.1, q.2)

/-- One simulation tick: update every vehicle, then recompute the stats. -/
def tickState (σ : SimState) (dt : ℝ) (deps : List Bool) : SimState :=
  let p := tickVehicles dt σ.lot σ.vehicles deps
  { lot := p.2, vehicles := p.1, stats := updateStats p.1 σ.stats }

/-- States reachable from `σ0` by ticks with nonnegative time deltas and
arbitrary departure draws. -/
inductive Reachable : SimState → SimState → Prop
  | refl (σ : SimState) : Reachable σ σ
  | tick {σ0 σ : SimState} (h : Reachable σ0 σ) (dt : ℝ) (hdt : 0 ≤ dt) (deps : List Bool) :
      Reachable σ0 (tickState σ dt deps)

/-! ### Specification of the `findAvailableSpace` scan -/

theorem enumFrom_cons' (n : ℕ) (a : Space) (l : List Space) :
    List.enumFrom n (a :: l) = (n, a) :: List.enumFrom (n + 1) l := rfl

theorem findFold_skip (p : Vec3) (l : List (ℕ × Space)) (acc : Option (ℕ × ℝ))
    (h : ∀ q ∈ l, q.2.occupied = true) :
    l.foldl (ParkingLot.findStep p) acc = acc := by
  induction l generalizing acc with
  | nil => rfl
  | cons q l ih =>
      have hq : q.2.occupied = true := h q (List.mem_cons_self q l)
      have hstep : ParkingLot.findStep p acc q = acc := by
        simp [ParkingLot.findStep, hq]
      rw [List.foldl_cons, hstep]
      exact ih acc fun q' hq' => h q' (List.mem_cons_of_mem q hq')

theorem findFold_spec (p : Vec3) (l : List Space) :
    ∀ (n : ℕ) (acc : Option (ℕ × ℝ)),
      ((List.enumFrom n l).foldl (ParkingLot.findStep p) acc = none →
          acc = none ∧ ∀ s ∈ l, s.occupied = true) ∧
      (∀ i d, (List.enumFrom n l).foldl (ParkingLot.findStep p) acc = some (i, d) →
        (acc = some (i, d) ∧ ∀ s ∈ l, s.occupied = false →
            d ≤ Vec3.distanceTo p s.position) ∨
        (∃ k s, l.get? k = some s ∧ i = n + k ∧ s.occupied = false ∧
            d = Vec3.distanceTo p s.position ∧
            (∀ j cd, acc = some (j, cd) → d < cd) ∧
            (∀ m s', m < k → l.get? m = some s' → s'.occupied = false →
                d < Vec3.distanceTo p s'.position) ∧
            (∀ s' ∈ l, s'.occupied = false → d ≤ Vec3.distanceTo p s'.position))) := by
  induction l with
  | nil =>
      intro n acc
      constructor
      · intro h
        exact ⟨h, by simp⟩
      · intro i d h
        left
        exact ⟨h, by simp⟩
  | cons s l ih =>
      intro n acc
      rw [enumFrom_cons', List.foldl_cons]
      by_cases hocc : s.occupied = true
      · -- the head is occupied and is skipped
        have hstep : ParkingLot.findStep p acc (n, s) = acc := by
          simp [ParkingLot.findStep, hocc]
        rw [hstep]
        refine ⟨?_, ?_⟩
        · intro h
          obtain ⟨hacc, hall⟩ := (ih (n + 1) acc).1 h
          refine ⟨hacc, ?_⟩
          intro s' hs'
          rcases List.mem_cons.mp hs' with h' | h'
          · rwa [h']
          · exact hall s' h'
        · intro i d h
          rcases (ih (n + 1) acc).2 i d h with ⟨hacc, hall⟩ | ⟨k, s₀, hk, hi, hu, hd, haccLt, hbefore, hall⟩
          · left
            refine ⟨hacc, ?_⟩
            intro s' hs' hs'u
            rcases List.mem_cons.mp hs' with h' | h'
            · simp [h', hocc] at hs'u
            · exact hall s' h' hs'u
          · right
            refine ⟨k + 1, s₀, by simpa using hk, by omega, hu, hd, haccLt, ?_, ?_⟩
            · intro m s' hm hms hs'u
              match m with
              | 0 =>
                  simp only [List.get?] at hms
                  cases hms
                  simp [hocc] at hs'u
              | m + 1 =>
                  exact hbefore m s' (by omega) (by simpa using hms) hs'u
            · intro s' hs' hs'u
              rcases List.mem_cons.mp hs' with h' | h'
              · simp [h', hocc] at hs'u
              · exact hall s' h' hs'u
      · -- the head is unoccupied
        have hocc' : s.occupied = false := by
          cases h : s.occupied
          · rfl
          · exact absurd h hocc
        rcases hacc : acc with _ | ⟨j, cd⟩
        · -- acc = none: the head is adopted
          have hstep : ParkingLot.findStep p none (n, s) =
              some (n, Vec3.distanceTo p s.position) := by
            simp [ParkingLot.findStep, hocc']
          rw [hstep]
          refine ⟨?_, ?_⟩
          · intro h
            obtain ⟨hbad, _⟩ := (ih (n + 1) (some (n, Vec3.distanceTo p s.position))).1 h
            cases hbad
          · intro i d h
            rcases (ih (n + 1) (some (n, Vec3.distanceTo p s.position))).2 i d h with
              ⟨heq, hall⟩ | ⟨k, s₀, hk, hi, hu, hd, haccLt, hbefore, hall⟩
            · -- the head survived the rest of the scan
              right
              cases heq
              refine ⟨0, s, rfl, by omega, hocc', rfl, by simp, ?_, ?_⟩
              · intro m s' hm
                omega
              · intro s' hs' hs'u
                rcases List.mem_cons.mp hs' with h' | h'
                · rw [h']
                · exact hall s' h' hs'u
            · -- a later space won
              right
              have hlt : d < Vec3.distanceTo p s.position := haccLt n _ rfl
              refine ⟨k + 1, s₀, by simpa using hk, by omega, hu, hd, by simp, ?_, ?_⟩
              · intro m s' hm hms hs'u
                match m with
                | 0 =>
                    simp only [List.get?] at hms
                    cases hms
                    exact hlt
                | m + 1 =>
                    exact hbefore m s' (by omega) (by simpa using hms) hs'u
              · intro s' hs' hs'u
                rcases List.mem_cons.mp hs' with h' | h'
                · rw [h']; exact le_of_lt hlt
                · exact hall s' h' hs'u
        · -- acc = some (j, cd)
          by_cases hcmp : Vec3.distanceTo p s.position < cd
          · -- the head replaces the accumulator
            have hstep : ParkingLot.findStep p (some (j, cd)) (n, s) =
                some (n, Vec3.distanceTo p s.position) := by
              simp [ParkingLot.findStep, hocc', hcmp]
            rw [hstep]
            refine ⟨?_, ?_⟩
            · intro h
              obtain ⟨hbad, _⟩ := (ih (n + 1) (some (n, Vec3.distanceTo p s.position))).1 h
              cases hbad
            · intro i d h
              rcases (ih (n + 1) (some (n, Vec3.distanceTo p s.position))).2 i d h with
                ⟨heq, hall⟩ | ⟨k, s₀, hk, hi, hu, hd, haccLt, hbefore, hall⟩
              · right
                cases heq
                refine ⟨0, s, rfl, by omega, hocc', rfl, ?_, ?_, ?_⟩
                · intro j' cd' hj'
                  cases hj'
                  exact hcmp
                · intro m s' hm
                  omega
                · intro s' hs' hs'u
                  rcases List.mem_cons.mp hs' with h' | h'
                  · rw [h']
                  · exact hall s' h' hs'u
              · right
                have hlt : d < Vec3.distanceTo p s.position := haccLt n _ rfl
                refine ⟨k + 1, s₀, by simpa using hk, by omega, hu, hd, ?_, ?_, ?_⟩
                · intro j' cd' hj'
                  cases hj'
                  exact lt_trans hlt hcmp
                · intro m s' hm hms hs'u
                  match m with
                  | 0 =>
                      simp only [List.get?] at hms
                      cases hms
                      exact hlt
                  | m + 1 =>
                      exact hbefore m s' (by omega) (by simpa using hms) hs'u
                · intro s' hs' hs'u
                  rcases List.mem_cons.mp hs' with h' | h'
                  · rw [h']; exact le_of_lt hlt
                  · exact hall s' h' hs'u
          · -- the accumulator survives the head
            have hstep : ParkingLot.findStep p (some (j, cd)) (n, s) = some (j, cd) := by
              simp [ParkingLot.findStep, hocc', hcmp]
            rw [hstep]
            have hle : cd ≤ Vec3.distanceTo p s.position := le_of_not_lt hcmp
            refine ⟨?_, ?_⟩
            · intro h
              obtain ⟨hbad, _⟩ := (ih (n + 1) (some (j, cd))).1 h
              cases hbad
            · intro i d h
              rcases (ih (n + 1) (some (j, cd))).2 i d h with
                ⟨heq, hall⟩ | ⟨k, s₀, hk, hi, hu, hd, haccLt, hbefore, hall⟩
              · left
                cases heq
                refine ⟨rfl, ?_⟩
                intro s' hs' hs'u
                rcases List.mem_cons.mp hs' with h' | h'
                · rw [h']; exact hle
                · exact hall s' h' hs'u
              · right
                have hlt : d < cd := haccLt j cd rfl
                refine ⟨k + 1, s₀, by simpa using hk, by omega, hu, hd, ?_, ?_, ?_⟩
                · intro j' cd' hj'
                  cases hj'
                  exact hlt
                · intro m s' hm hms hs'u
                  match m with
                  | 0 =>
                      simp only [List.get?] at hms
                      cases hms
                      exact lt_of_lt_of_le hlt hle
                  | m + 1 =>
                      exact hbefore m s' (by omega) (by simpa using hms) hs'u
                · intro s' hs' hs'u
                  rcases List.mem_cons.mp hs' with h' | h'
                  · rw [h']; exact le_of_lt (lt_of_lt_of_le hlt hle)
                  · exact hall s' h' hs'u

theorem enum_eq_enumFrom (l : List Space) : l.enum = List.enumFrom 0 l := rfl

/-- A successful scan returns an unoccupied space of minimal distance, and the
first such space under ties (every unoccupied space at a smaller index is
strictly farther). -/
theorem findAvailableSpace_spec {lot : ParkingLot} {p : Vec3} {i : ℕ}
    (h : lot.findAvailableSpace p = some i) :
    ∃ s, lot.spaces.get? i = some s ∧ s.occupied = false ∧
      (∀ s' ∈ lot.spaces, s'.occupied = false →
          Vec3.distanceTo p s.position ≤ Vec3.distanceTo p s'.position) ∧
      (∀ m s', m < i → lot.spaces.get? m = some s' → s'.occupied = false →
          Vec3.distanceTo p s.position < Vec3.distanceTo p s'.position) := by
  unfold ParkingLot.findAvailableSpace at h
  rcases hf : lot.spaces.enum.foldl (ParkingLot.findStep p) none with _ | ⟨i', d⟩
  · rw [hf] at h; cases h
  · rw [hf] at h
    simp only [Option.map_some'] at h
    cases h
    rw [enum_eq_enumFrom] at hf
    rcases (findFold_spec p lot.spaces 0 none).2 i d hf with
      ⟨hbad, _⟩ | ⟨k, s, hk, hi, hu, hd, _, hbefore, hall⟩
    · cases hbad
    · have hki : k = i := by omega
      subst hki
      refine ⟨s, hk, hu, ?_, ?_⟩
      · intro s' hs' hs'u
        rw [← hd]
        exact hall s' hs' hs'u
      · intro m s' hm hms hs'u
        rw [← hd]
        exact hbefore m s' hm hms hs'u

/-- The scan returns `none` exactly when every space is occupied. -/
theorem findAvailableSpace_none_iff (lot : ParkingLot) (p : Vec3) :
    lot.findAvailableSpace p = none ↔ ∀ s ∈ lot.spaces, s.occupied = true := by
  constructor
  · intro h
    unfold ParkingLot.findAvailableSpace at h
    rcases hf : lot.spaces.enum.foldl (ParkingLot.findStep p) none with _ | ⟨i', d⟩
    · rw [enum_eq_enumFrom] at hf
      exact ((findFold_spec p lot.spaces 0 none).1 hf).2
    · rw [hf] at h; cases h
  · intro h
    unfold ParkingLot.findAvailableSpace
    rw [findFold_skip]
    · rfl
    · intro q hq
      have hmem : q.2 ∈ lot.spaces := by
        rcases q with ⟨n, s⟩
        exact List.getElem?_mem (List.mem_enum_iff_getElem?.mp hq)
      exact h q.2 hmem

/-- A successful scan returns an in-range index. -/
theorem findAvailableSpace_lt {lot : ParkingLot} {p : Vec3} {i : ℕ}
    (h : lot.findAvailableSpace p = some i) : i < lot.spaces.length := by
  obtain ⟨s, hs, -⟩ := findAvailableSpace_spec h
  exact (List.get?_eq_some.mp hs).1

/-! ### Frame lemmas for `setSpaceOccupied` -/

/-- The immutable part of a space record: everything but the occupancy flag and
the visual tint. -/
def Space.frame (s : Space) : ℕ × ℕ × ℕ × Vec3 × ℝ :=
  (s.row, s.col, s.side, s.position, s.rotation)

/-- Reduction of `setSpaceOccupied` on a reference into the collection. -/
theorem setSpaceOccupied_lot_eq (lot : ParkingLot) (i : ℕ) (b : Bool) :
    lot.setSpaceOccupied (some (Target.lot i)) b =
      match lot.spaces.get? i with
      | some s =>
          { lot with
            spaces := lot.spaces.set i
              { s with occupied := b, tint := if b then 0x555555 else 0x666666 } }
      | none => lot := rfl

theorem setSpaceOccupied_length (lot : ParkingLot) (t : Option Target) (b : Bool) :
    (lot.setSpaceOccupied t b).spaces.length = lot.spaces.length := by
  rcases t with _ | ⟨i⟩ | ⟨q, r⟩
  · rfl
  · rw [setSpaceOccupied_lot_eq]
    rcases h : lot.spaces.get? i with _ | s
    · rfl
    · simp [List.length_set]
  · rfl

theorem setSpaceOccupied_frame (lot : ParkingLot) (t : Option Target) (b : Bool) :
    (lot.setSpaceOccupied t b).spaces.map Space.frame = lot.spaces.map Space.frame := by
  rcases t with _ | ⟨i⟩ | ⟨q, r⟩
  · rfl
  · rw [setSpaceOccupied_lot_eq]
    rcases h : lot.spaces.get? i with _ | s
    · rfl
    · have hi : i < lot.spaces.length := (List.get?_eq_some.mp h).1
      simp only
      apply List.ext_get?
      intro n
      rcases eq_or_ne n i with rfl | hne
      · rw [List.get?_map, List.get?_map, List.get?_set_eq_of_lt _ hi, h]
        rfl
      · rw [List.get?_map, List.get?_map, List.get?_set_ne _ _ (Ne.symm hne)]
  · rfl

theorem setSpaceOccupied_get_ne (lot : ParkingLot) (i : ℕ) (b : Bool) (j : ℕ) (hne : j ≠ i) :
    (lot.setSpaceOccupied (some (Target.lot i)) b).spaces.get? j = lot.spaces.get? j := by
  rw [setSpaceOccupied_lot_eq]
  rcases h : lot.spaces.get? i with _ | s
  · rfl
  · exact List.get?_set_ne _ _ (Ne.symm hne)

theorem setSpaceOccupied_get_eq (lot : ParkingLot) (i : ℕ) (b : Bool) (s : Space)
    (h : lot.spaces.get? i = some s) :
    (lot.setSpaceOccupied (some (Target.lot i)) b).spaces.get? i =
      some { s with occupied := b, tint := if b then 0x555555 else 0x666666 } := by
  have hi : i < lot.spaces.length := (List.get?_eq_some.mp h).1
  rw [setSpaceOccupied_lot_eq, h]
  exact List.get?_set_eq_of_lt _ hi

/-- A `setSpaceOccupied` call on a reference that is not a member of the
collection (null, the synthetic exit object, or a stale index) is a no-op. -/
theorem setSpaceOccupied_foreign (lot : ParkingLot) (t : Option Target) (b : Bool)
    (h : t = none ∨ (∃ q r, t = some (Target.exitAt q r)) ∨
      ∃ i, t = some (Target.lot i) ∧ lot.spaces.length ≤ i) :
    lot.setSpaceOccupied t b = lot := by
  rcases h with rfl | ⟨q, r, rfl⟩ | ⟨i, rfl, hi⟩
  · rfl
  · rfl
  · rw [setSpaceOccupied_lot_eq]
    rcases h : lot.spaces.get? i with _ | s
    · rfl
    · exact absurd (List.get?_eq_some.mp h).1 (by omega)

/-! ### Branch lemmas for the vehicle update -/

theorem updateMoving_noTarget (v : Vehicle) (lot : ParkingLot) (dt : ℝ)
    (ht : v.target = none) :
    v.updateMoving lot dt = (v.findParkingSpace lot, lot) := by
  unfold Vehicle.updateMoving
  rw [ht]

theorem updateMoving_park (v : Vehicle) (lot : ParkingLot) (dt : ℝ) (t : Target)
    (ht : v.target = some t) (hd : Vehicle.distanceToTarget lot v t < 1) :
    v.updateMoving lot dt =
      ({ v with
          speed := 0
          state := VState.parked
          pos := targetPosition lot t
          rot := targetRotation lot t },
        lot.setSpaceOccupied (some t) true) := by
  unfold Vehicle.updateMoving
  rw [ht]
  simp only [if_pos hd]
  apply Prod.ext
  · ext <;> simp
  · rfl

theorem updateMoving_decel (v : Vehicle) (lot : ParkingLot) (dt : ℝ) (t : Target)
    (ht : v.target = some t) (hd1 : ¬ Vehicle.distanceToTarget lot v t < 1)
    (hd5 : Vehicle.distanceToTarget lot v t < 5) :
    v.updateMoving lot dt =
      ({ v with
          rot := v.rot + Vehicle.turnAmount lot v t dt
          speed := max (v.speed - v.acceleration * dt) 0.5
          pos := v.pos + (max (v.speed - v.acceleration * dt) 0.5 * dt) •
            Vec3.rotateY (v.rot + Vehicle.turnAmount lot v t dt) ⟨0, 0, -1⟩ }, lot) := by
  unfold Vehicle.updateMoving
  rw [ht]
  simp only [if_neg hd1, if_pos hd5]

theorem updateMoving_accel (v : Vehicle) (lot : ParkingLot) (dt : ℝ) (t : Target)
    (ht : v.target = some t) (hd1 : ¬ Vehicle.distanceToTarget lot v t < 1)
    (hd5 : ¬ Vehicle.distanceToTarget lot v t < 5) :
    v.updateMoving lot dt =
      ({ v with
          rot := v.rot + Vehicle.turnAmount lot v t dt
          speed := min (v.speed + v.acceleration * dt) v.maxSpeed
          pos := v.pos + (min (v.speed + v.acceleration * dt) v.maxSpeed * dt) •
            Vec3.rotateY (v.rot + Vehicle.turnAmount lot v t dt) ⟨0, 0, -1⟩ }, lot) := by
  unfold Vehicle.updateMoving
  rw [ht]
  simp only [if_neg hd1, if_neg hd5]

theorem update_moving (v : Vehicle) (lot : ParkingLot) (dt : ℝ) (dep : Bool)
    (hs : v.state = VState.moving) :
    v.update dt lot dep = v.updateMoving lot dt := by
  unfold Vehicle.update
  rw [hs]

theorem update_waiting (v : Vehicle) (lot : ParkingLot) (dt : ℝ) (dep : Bool)
    (hs : v.state = VState.waiting) :
    v.update dt lot dep =
      (if v.waitTime + dt > 2
        then ({ ({ v with waitTime := v.waitTime + dt }).findParkingSpace lot with waitTime := 0 },
          lot)
        else ({ v with waitTime := v.waitTime + dt }, lot)) := by
  unfold Vehicle.update
  rw [hs]

theorem update_parked (v : Vehicle) (lot : ParkingLot) (dt : ℝ) (dep : Bool)
    (hs : v.state = VState.parked) :
    v.update dt lot dep = (if dep then v.leaveParking lot else (v, lot)) := by
  unfold Vehicle.update
  rw [hs]

/-! ### Reduction lemmas for target acquisition and release -/

theorem findParkingSpace_found (v : Vehicle) (lot : ParkingLot) (i : ℕ)
    (h : lot.findAvailableSpace v.pos = some i) :
    v.findParkingSpace lot = { v with target := some (Target.lot i), state := VState.moving } := by
  unfold Vehicle.findParkingSpace
  rw [h]

theorem findParkingSpace_notFound (v : Vehicle) (lot : ParkingLot)
    (h : lot.findAvailableSpace v.pos = none) :
    v.findParkingSpace lot = { v with state := VState.waiting } := by
  unfold Vehicle.findParkingSpace
  rw [h]

theorem leaveParking_some (v : Vehicle) (lot : ParkingLot) (t : Target)
    (ht : v.target = some t) :
    v.leaveParking lot =
      ({ v with target := some (Target.exitAt ⟨-50, 0, 0⟩ 0), state := VState.moving },
        lot.setSpaceOccupied (some t) false) := by
  unfold Vehicle.leaveParking
  rw [ht]

theorem leaveParking_none (v : Vehicle) (lot : ParkingLot) (ht : v.target = none) :
    v.leaveParking lot = (v, lot) := by
  unfold Vehicle.leaveParking
  rw [ht]

/-! ### Geometry preservation across ticks -/

/-- The immutable geometry of the lot (everything except occupancy and tint). -/
def lotGeom (lot : ParkingLot) : List (ℕ × ℕ × ℕ × Vec3 × ℝ) := lot.spaces.map Space.frame

/-- The position stored at a given space index. -/
def posAt (lot : ParkingLot) (i : ℕ) : Option Vec3 := (lot.spaces.get? i).map (·.position)

theorem lotGeom_length {lot lot' : ParkingLot} (h : lotGeom lot = lotGeom lot') :
    lot.spaces.length = lot'.spaces.length := by
  have := congrArg List.length h
  simpa [lotGeom] using this

theorem posAt_congr {lot lot' : ParkingLot} (h : lotGeom lot = lotGeom lot') (i : ℕ) :
    posAt lot i = posAt lot' i := by
  have hmap := congrArg (fun l => l.get? i) h
  simp only [lotGeom, List.get?_map] at hmap
  unfold posAt
  rcases h1 : lot.spaces.get? i with _ | s
  · rcases h2 : lot'.spaces.get? i with _ | s'
    · rfl
    · rw [h1, h2] at hmap
      cases hmap
  · rcases h2 : lot'.spaces.get? i with _ | s'
    · rw [h1, h2] at hmap
      cases hmap
    · rw [h1, h2] at hmap
      simp only [Option.map_some'] at hmap ⊢
      have hf : Space.frame s = Space.frame s' := Option.some.inj hmap
      have : s.position = s'.position := congrArg (fun q => q.2.2.2.1) hf
      rw [this]

theorem targetPosition_congr {lot lot' : ParkingLot} (h : lotGeom lot = lotGeom lot')
    (t : Target) : targetPosition lot t = targetPosition lot' t := by
  cases t with
  | lot i =>
      have hp := posAt_congr h i
      unfold posAt at hp
      show ((lot.spaces.get? i).map (·.position)).getD ⟨0, 0, 0⟩ =
        ((lot'.spaces.get? i).map (·.position)).getD ⟨0, 0, 0⟩
      rw [hp]
  | exitAt p r => rfl

/-! ### The parked-position invariant (for the occupancy analysis) -/

/-- Validity of a target reference: a lot reference is in range, and the
synthetic exit object is the one `leaveParking` creates. -/
def targetOk (lot : ParkingLot) : Target → Prop
  | Target.lot i => i < lot.spaces.length
  | Target.exitAt p r => p = ⟨-50, 0, 0⟩ ∧ r = 0

/-- Invariant of a single vehicle: every held target is valid, and a parked
vehicle sits exactly at its target's stored position. -/
def VehicleInv (lot : ParkingLot) (v : Vehicle) : Prop :=
  (∀ t, v.target = some t → targetOk lot t) ∧
  (v.state = VState.parked → ∃ t, v.target = some t ∧ v.pos = targetPosition lot t)

theorem targetOk_congr {lot lot' : ParkingLot} (h : lotGeom lot = lotGeom lot') {t : Target}
    (ht : targetOk lot t) : targetOk lot' t := by
  cases t with
  | lot i => exact lt_of_lt_of_eq ht (lotGeom_length h)
  | exitAt p r => exact ht

theorem VehicleInv_congr {lot lot' : ParkingLot} (h : lotGeom lot = lotGeom lot') {v : Vehicle}
    (hv : VehicleInv lot v) : VehicleInv lot' v := by
  refine ⟨fun t ht => targetOk_congr h (hv.1 t ht), fun hp => ?_⟩
  obtain ⟨t, ht, hpos⟩ := hv.2 hp
  exact ⟨t, ht, hpos.trans (targetPosition_congr h t)⟩

theorem update_geom (v : Vehicle) (lot : ParkingLot) (dt : ℝ) (dep : Bool) :
    lotGeom (v.update dt lot dep).2 = lotGeom lot := by
  cases hs : v.state with
  | moving =>
      rw [update_moving v lot dt dep hs]
      rcases ht : v.target with _ | t
      · rw [updateMoving_noTarget v lot dt ht]
      · by_cases hd1 : Vehicle.distanceToTarget lot v t < 1
        · rw [updateMoving_park v lot dt t ht hd1]
          exact setSpaceOccupied_frame lot (some t) true
        · by_cases hd5 : Vehicle.distanceToTarget lot v t < 5
          · rw [updateMoving_decel v lot dt t ht hd1 hd5]
          · rw [updateMoving_accel v lot dt t ht hd1 hd5]
  | waiting =>
      rw [update_waiting v lot dt dep hs]
      split
      · rfl
      · rfl
  | parked =>
      rw [update_parked v lot dt dep hs]
      rcases dep with _ | _
      · rfl
      · simp only [if_true]
        rcases ht : v.target with _ | t
        · rw [leaveParking_none v lot ht]
        · rw [leaveParking_some v lot t ht]
          exact setSpaceOccupied_frame lot (some t) false

theorem findParkingSpace_inv (v : Vehicle) (lot : ParkingLot)
    (hv : ∀ t, v.target = some t → targetOk lot t) :
    (∀ t, (v.findParkingSpace lot).target = some t → targetOk lot t) ∧
    ((v.findParkingSpace lot).state = VState.moving ∨
      (v.findParkingSpace lot).state = VState.waiting) := by
  rcases hf : lot.findAvailableSpace v.pos with _ | i
  · rw [findParkingSpace_notFound v lot hf]
    exact ⟨fun t ht => hv t ht, Or.inr rfl⟩
  · rw [findParkingSpace_found v lot i hf]
    refine ⟨?_, Or.inl rfl⟩
    intro t ht
    have ht' : some (Target.lot i) = some t := ht
    cases Option.some.inj ht'
    exact findAvailableSpace_lt hf

theorem update_inv (v : Vehicle) (lot : ParkingLot) (dt : ℝ) (dep : Bool)
    (hv : VehicleInv lot v) :
    VehicleInv (v.update dt lot dep).2 (v.update dt lot dep).1 := by
  have hgeom : lotGeom lot = lotGeom (v.update dt lot dep).2 := (update_geom v lot dt dep).symm
  refine VehicleInv_congr hgeom ?_
  cases hs : v.state with
  | moving =>
      rw [update_moving v lot dt dep hs]
      rcases ht : v.target with _ | t
      · rw [updateMoving_noTarget v lot dt ht]
        obtain ⟨h1, h2⟩ := findParkingSpace_inv v lot hv.1
        refine ⟨h1, fun hp => ?_⟩
        rcases h2 with h2 | h2
        · rw [hp] at h2; cases h2
        · rw [hp] at h2; cases h2
      · by_cases hd1 : Vehicle.distanceToTarget lot v t < 1
        · rw [updateMoving_park v lot dt t ht hd1]
          refine ⟨fun t' ht' => hv.1 t' ht', fun _ => ⟨t, ht, rfl⟩⟩
        · by_cases hd5 : Vehicle.distanceToTarget lot v t < 5
          · rw [updateMoving_decel v lot dt t ht hd1 hd5]
            refine ⟨fun t' ht' => hv.1 t' ht', fun hp => ?_⟩
            have h2 : v.state = VState.parked := hp
            rw [hs] at h2
            cases h2
          · rw [updateMoving_accel v lot dt t ht hd1 hd5]
            refine ⟨fun t' ht' => hv.1 t' ht', fun hp => ?_⟩
            have h2 : v.state = VState.parked := hp
            rw [hs] at h2
            cases h2
  | waiting =>
      rw [update_waiting v lot dt dep hs]
      split
      · obtain ⟨h1, h2⟩ :=
          findParkingSpace_inv { v with waitTime := v.waitTime + dt } lot hv.1
        refine ⟨fun t' ht' => h1 t' ht', fun hp => ?_⟩
        rcases h2 with h2 | h2
        · rw [hp] at h2; cases h2
        · rw [hp] at h2; cases h2
      · refine ⟨fun t' ht' => hv.1 t' ht', fun hp => ?_⟩
        have h2 : v.state = VState.parked := hp
        rw [hs] at h2
        cases h2
  | parked =>
      rw [update_parked v lot dt dep hs]
      rcases dep with _ | _
      · exact hv
      · simp only [if_true]
        rcases ht : v.target with _ | t
        · rw [leaveParking_none v lot ht]
          exact hv
        · rw [leaveParking_some v lot t ht]
          refine ⟨?_, fun hp => ?_⟩
          · intro t' ht'
            have ht'' : some (Target.exitAt ⟨-50, 0, 0⟩ 0) = some t' := ht'
            cases Option.some.inj ht''
            exact ⟨rfl, rfl⟩
          · have h2 : VState.moving = VState.parked := hp
            cases h2

theorem tickVehicles_inv (dt : ℝ) :
    ∀ (vs : List Vehicle) (lot : ParkingLot) (deps : List Bool),
      (∀ v ∈ vs, VehicleInv lot v) →
      lotGeom (tickVehicles dt lot vs deps).2 = lotGeom lot ∧
      ∀ v' ∈ (tickVehicles dt lot vs deps).1, VehicleInv (tickVehicles dt lot vs deps).2 v' := by
  intro vs
  induction vs with
  | nil =>
      intro lot deps _
      exact ⟨rfl, by simp [tickVehicles]⟩
  | cons v vs ih =>
      intro lot deps hall
      have hv : VehicleInv lot v := hall v (List.mem_cons_self v vs)
      have hstep := update_inv v lot dt (deps.headD false) hv
      have hgeom := update_geom v lot dt (deps.headD false)
      have htail : ∀ w ∈ vs, VehicleInv (v.update dt lot (deps.headD false)).2 w :=
        fun w hw => VehicleInv_congr hgeom.symm (hall w (List.mem_cons_of_mem v hw))
      obtain ⟨hg2, hrest⟩ := ih (v.update dt lot (deps.headD false)).2 deps.tail htail
      constructor
      · show lotGeom (tickVehicles dt (v.update dt lot (deps.headD false)).2 vs deps.tail).2 =
          lotGeom lot
        exact hg2.trans hgeom
      · intro v' hv'
        show VehicleInv (tickVehicles dt (v.update dt lot (deps.headD false)).2 vs deps.tail).2 v'
        have hmem : v' = (v.update dt lot (deps.headD false)).1 ∨
            v' ∈ (tickVehicles dt (v.update dt lot (deps.headD false)).2 vs deps.tail).1 := by
          simpa [tickVehicles] using hv'
        rcases hmem with rfl | hmem
        · exact VehicleInv_congr hg2.symm hstep
        · exact hrest v' hmem

/-- The simulation-level invariant. -/
def SimInv (σ : SimState) : Prop := ∀ v ∈ σ.vehicles, VehicleInv σ.lot v

theorem tickState_inv (σ : SimState) (dt : ℝ) (deps : List Bool) (h : SimInv σ) :
    SimInv (tickState σ dt deps) := by
  intro v hv
  exact (tickVehicles_inv dt σ.vehicles σ.lot deps h).2 v hv

theorem tickVehicles_geom (dt : ℝ) :
    ∀ (vs : List Vehicle) (lot : ParkingLot) (deps : List Bool),
      lotGeom (tickVehicles dt lot vs deps).2 = lotGeom lot := by
  intro vs
  induction vs with
  | nil => intro lot deps; rfl
  | cons v vs ih =>
      intro lot deps
      show lotGeom (tickVehicles dt (v.update dt lot (deps.headD false)).2 vs deps.tail).2 =
        lotGeom lot
      exact (ih _ _).trans (update_geom v lot dt (deps.headD false))

theorem tickState_geom (σ : SimState) (dt : ℝ) (deps : List Bool) :
    lotGeom (tickState σ dt deps).lot = lotGeom σ.lot :=
  tickVehicles_geom dt σ.vehicles σ.lot deps

theorem reachable_geom {σ0 σ : SimState} (h : Reachable σ0 σ) :
    lotGeom σ.lot = lotGeom σ0.lot := by
  induction h with
  | refl => rfl
  | tick h dt hdt deps ih => exact (tickState_geom _ dt deps).trans ih

theorem reachable_inv {σ0 σ : SimState} (h : Reachable σ0 σ) (h0 : SimInv σ0) : SimInv σ := by
  induction h with
  | refl => exact h0
  | tick h dt hdt deps ih => exact tickState_inv _ dt deps ih

/-- A freshly loaded scenario: every vehicle starts `moving` with no target
(`loadCurrentScenario` constructs vehicles this way), the stored space
positions are pairwise distinct, and no space sits at the off-lot exit point. -/
def SimInit (σ : SimState) : Prop :=
  (∀ v ∈ σ.vehicles, v.state = VState.moving ∧ v.target = none) ∧
  (∀ i j si sj, σ.lot.spaces.get? i = some si → σ.lot.spaces.get? j = some sj →
      si.position = sj.position → i = j) ∧
  (∀ s ∈ σ.lot.spaces, s.position ≠ ⟨-50, 0, 0⟩)

theorem SimInit_inv {σ : SimState} (h : SimInit σ) : SimInv σ := by
  intro v hv
  obtain ⟨hs, ht⟩ := h.1 v hv
  refine ⟨fun t htt => ?_, fun hp => ?_⟩
  · rw [ht] at htt; cases htt
  · rw [hp] at hs; cases hs

theorem targetPosition_lot_of_lt {lot : ParkingLot} {a : ℕ} (h : a < lot.spaces.length) :
    ∃ s, lot.spaces.get? a = some s ∧ targetPosition lot (Target.lot a) = s.position := by
  rcases hg : lot.spaces.get? a with _ | s
  · rw [List.get?_eq_none] at hg
    omega
  · refine ⟨s, rfl, ?_⟩
    show ((lot.spaces.get? a).map (·.position)).getD ⟨0, 0, 0⟩ = s.position
    rw [hg]
    rfl

/-- C2 (amended): in every reachable state, a vehicle parked in a space sits
exactly at its target's stored position, so two distinct vehicles parked at
the same position necessarily hold the *same* target-space reference.  The
unconditional at-most-one-occupant invariant of the claim fails (see the
counterexample): since `findAvailableSpace` does not reserve, two vehicles can
acquire the same unoccupied space and both park in it. -/
theorem parked_same_position_same_target (σ0 σ : SimState) (h0 : SimInit σ0)
    (hr : Reachable σ0 σ) {i j : ℕ} (_hij : i ≠ j) {vi vj : Vehicle}
    (hvi : σ.vehicles.get? i = some vi) (hvj : σ.vehicles.get? j = some vj)
    (hpi : vi.state = VState.parked) (hpj : vj.state = VState.parked)
    (hpos : vi.pos = vj.pos) : vi.target = vj.target := by
  have hinv : SimInv σ := reachable_inv hr (SimInit_inv h0)
  have hi := hinv vi (List.get?_mem hvi)
  have hj := hinv vj (List.get?_mem hvj)
  obtain ⟨ti, hti, hposi⟩ := hi.2 hpi
  obtain ⟨tj, htj, hposj⟩ := hj.2 hpj
  have hoki := hi.1 ti hti
  have hokj := hj.1 tj htj
  have hgeom := reachable_geom hr
  -- transfer the position facts of the initial lot to the current lot
  have htrans : ∀ a sa, σ.lot.spaces.get? a = some sa →
      ∃ sa0, σ0.lot.spaces.get? a = some sa0 ∧ sa.position = sa0.position := by
    intro a sa ha
    have ha0 := posAt_congr hgeom a
    unfold posAt at ha0
    rw [ha] at ha0
    rcases h0a : σ0.lot.spaces.get? a with _ | sa0
    · rw [h0a] at ha0
      cases ha0
    · rw [h0a] at ha0
      simp only [Option.map_some'] at ha0
      exact ⟨sa0, rfl, Option.some.inj ha0⟩
  have hinj : ∀ a b sa sb, σ.lot.spaces.get? a = some sa → σ.lot.spaces.get? b = some sb →
      sa.position = sb.position → a = b := by
    intro a b sa sb ha hb hab
    obtain ⟨sa0, ha0, hpa0⟩ := htrans a sa ha
    obtain ⟨sb0, hb0, hpb0⟩ := htrans b sb hb
    exact h0.2.1 a b sa0 sb0 ha0 hb0 (hpa0.symm.trans (hab.trans hpb0))
  have hexit : ∀ a sa, σ.lot.spaces.get? a = some sa → sa.position ≠ ⟨-50, 0, 0⟩ := by
    intro a sa ha
    obtain ⟨sa0, ha0, hpa0⟩ := htrans a sa ha
    rw [hpa0]
    exact h0.2.2 sa0 (List.get?_mem ha0)
  cases ti with
  | lot a =>
      obtain ⟨sa, hga, hpa⟩ := targetPosition_lot_of_lt (hoki : a < σ.lot.spaces.length)
      cases tj with
      | lot b =>
          obtain ⟨sb, hgb, hpb⟩ := targetPosition_lot_of_lt (hokj : b < σ.lot.spaces.length)
          have hsab : sa.position = sb.position := by
            rw [← hpa, ← hpb, ← hposi, ← hposj, hpos]
          have hab : a = b := hinj a b sa sb hga hgb hsab
          rw [hti, htj, hab]
      | exitAt p r =>
          exfalso
          apply hexit a sa hga
          rw [← hpa, ← hposi, hpos, hposj]
          show targetPosition σ.lot (Target.exitAt p r) = _
          exact hokj.1
  | exitAt p r =>
      cases tj with
      | lot b =>
          obtain ⟨sb, hgb, hpb⟩ := targetPosition_lot_of_lt (hokj : b < σ.lot.spaces.length)
          exfalso
          apply hexit b sb hgb
          rw [← hpb, ← hposj, ← hpos, hposi]
          show targetPosition σ.lot (Target.exitAt p r) = _
          exact hoki.1
      | exitAt q w =>
          rw [hti, htj, hoki.1, hoki.2, hokj.1, hokj.2]

/-! ### A concrete double-occupancy scenario -/

/-- First space of the 1×1 demonstration lot (aisle side 0). -/
def c2SpaceA : Space :=
  { row := 0, col := 0, side := 0, position := ⟨0, 0, -7⟩, rotation := Real.pi,
    occupied := false, tint := 0x666666 }

/-- Second space of the 1×1 demonstration lot (aisle side 1). -/
def c2SpaceB : Space :=
  { row := 0, col := 0, side := 1, position := ⟨0, 0, 7⟩, rotation := 0,
    occupied := false, tint := 0x666666 }

/-- A 1×1 lot constructed exactly as `new ParkingLot({rows: 1, columns: 1, ...})`. -/
def c2Lot : ParkingLot := mkParkingLot (some 1) (some 1) (some 3) (some 6) (some 8)

theorem orDefaultReal_of_ne {x d : ℝ} (h : x ≠ 0) : orDefaultReal (some x) d = x := by
  simp [orDefaultReal, jsOrReal, h]

theorem c2Lot_spaces : c2Lot.spaces = [c2SpaceA, c2SpaceB] := by
  unfold c2Lot mkParkingLot
  rw [orDefaultReal_of_ne (by norm_num), orDefaultReal_of_ne (by norm_num),
    orDefaultReal_of_ne (by norm_num)]
  show createParkingSpaces (orDefaultNat (some 1) 3) (orDefaultNat (some 1) 5) 3 6 8
    (((orDefaultNat (some 1) 5 : ℕ) : ℝ) * 3) = [c2SpaceA, c2SpaceB]
  norm_num [orDefaultNat]
  unfold createParkingSpaces
  simp only [List.range_succ, List.range_zero, List.nil_append, List.flatMap_cons,
    List.flatMap_nil, List.map_cons, List.map_nil, List.append_nil, List.cons_append]
  norm_num [zOffset, facingDirection, c2SpaceA, c2SpaceB]

/-- Distance between two points on the z-axis. -/
theorem distanceTo_zAxis (y za zb : ℝ) :
    Vec3.distanceTo ⟨0, y, za⟩ ⟨0, y, zb⟩ = |za - zb| := by
  show Real.sqrt ((0 - 0 : ℝ) ^ 2 + (y - y) ^ 2 + (za - zb) ^ 2) = |za - zb|
  rw [show ((0 - 0 : ℝ) ^ 2 + (y - y) ^ 2 + (za - zb) ^ 2) = (za - zb) ^ 2 by ring]
  exact Real.sqrt_sq_eq_abs _

/-- Normalising a vector pointing down the z-axis. -/
theorem normalize_zNeg {z : ℝ} (hz : z < 0) :
    Vec3.normalize ⟨0, 0, z⟩ = ⟨0, 0, -1⟩ := by
  have hlen : Vec3.length ⟨0, 0, z⟩ = -z := by
    show Real.sqrt ((0 : ℝ) ^ 2 + (0 : ℝ) ^ 2 + z ^ 2) = -z
    rw [show ((0 : ℝ) ^ 2 + (0 : ℝ) ^ 2 + z ^ 2) = (-z) ^ 2 by ring]
    exact Real.sqrt_sq (by linarith)
  unfold Vec3.normalize
  rw [hlen]
  unfold jsOrReal
  rw [if_neg (by linarith : ¬(-z : ℝ) = 0)]
  ext
  · simp
  · simp
  · show 1 / -z * z = -1
    rw [div_mul_eq_mul_div, one_mul, div_neg, div_self (ne_of_lt hz)]

/-- Vehicle A of the double-occupancy scenario. -/
def c2VehA : Vehicle :=
  ⟨VType.car, ⟨0, 0, -1/2⟩, 0, VState.moving, none, 0, 0⟩

/-- Vehicle B of the double-occupancy scenario. -/
def c2VehB : Vehicle :=
  ⟨VType.car, ⟨0, 0, -1/5⟩, 0, VState.moving, none, 0, 0⟩

/-- Vehicle A after acquiring space 0 as its target. -/
def c2VehA1 : Vehicle := { c2VehA with target := some (Target.lot 0), state := VState.moving }

/-- Vehicle B after acquiring space 0 as its target. -/
def c2VehB1 : Vehicle := { c2VehB with target := some (Target.lot 0), state := VState.moving }

/-- Vehicle A parked in space 0. -/
def c2VehA2 : Vehicle :=
  { c2VehA1 with speed := 0, state := VState.parked, pos := ⟨0, 0, -7⟩, rot := Real.pi }

/-- Vehicle B parked in space 0. -/
def c2VehB2 : Vehicle :=
  { c2VehB1 with speed := 0, state := VState.parked, pos := ⟨0, 0, -7⟩, rot := Real.pi }

/-- Space 0 once occupied. -/
def c2SpaceAOcc : Space := { c2SpaceA with occupied := true, tint := 0x555555 }

/-- The lot after space 0 is taken. -/
def c2LotOcc : ParkingLot := { c2Lot with spaces := [c2SpaceAOcc, c2SpaceB] }

/-- The initial stats snapshot of the scenario. -/
def c2Stats0 : Stats := ⟨0, 2, 2, 0, 0, 0, 0⟩

/-- The initial simulation state of the double-occupancy scenario. -/
def c2S0 : SimState := ⟨c2Lot, [c2VehA, c2VehB], c2Stats0⟩

theorem c2SpaceA_occ : c2SpaceA.occupied = false := rfl

theorem c2SpaceB_occ : c2SpaceB.occupied = false := rfl

theorem c2_findA : c2Lot.findAvailableSpace c2VehA.pos = some 0 := by
  have h1 : Vec3.distanceTo c2VehA.pos c2SpaceA.position = 13/2 := by
    show Vec3.distanceTo ⟨0, 0, -1/2⟩ ⟨0, 0, -7⟩ = 13/2
    rw [distanceTo_zAxis]
    norm_num
  have h2 : Vec3.distanceTo c2VehA.pos c2SpaceB.position = 15/2 := by
    show Vec3.distanceTo ⟨0, 0, -1/2⟩ ⟨0, 0, 7⟩ = 15/2
    rw [distanceTo_zAxis]
    norm_num
  unfold ParkingLot.findAvailableSpace
  rw [c2Lot_spaces]
  show ((([(0, c2SpaceA), (1, c2SpaceB)] : List (ℕ × Space)).foldl
    (ParkingLot.findStep c2VehA.pos) none).map (·.1)) = some 0
  rw [List.foldl_cons, List.foldl_cons, List.foldl_nil]
  have hs1 : ParkingLot.findStep c2VehA.pos none (0, c2SpaceA) = some (0, 13/2) := by
    simp [ParkingLot.findStep, c2SpaceA_occ, h1]
  have hs2 : ParkingLot.findStep c2VehA.pos (some (0, 13/2)) (1, c2SpaceB) = some (0, 13/2) := by
    simp [ParkingLot.findStep, c2SpaceB_occ, h2]
    norm_num
  rw [hs1, hs2]
  rfl

theorem c2_findB : c2Lot.findAvailableSpace c2VehB.pos = some 0 := by
  have h1 : Vec3.distanceTo c2VehB.pos c2SpaceA.position = 34/5 := by
    show Vec3.distanceTo ⟨0, 0, -1/5⟩ ⟨0, 0, -7⟩ = 34/5
    rw [distanceTo_zAxis]
    norm_num
  have h2 : Vec3.distanceTo c2VehB.pos c2SpaceB.position = 36/5 := by
    show Vec3.distanceTo ⟨0, 0, -1/5⟩ ⟨0, 0, 7⟩ = 36/5
    rw [distanceTo_zAxis]
    norm_num
  unfold ParkingLot.findAvailableSpace
  rw [c2Lot_spaces]
  show ((([(0, c2SpaceA), (1, c2SpaceB)] : List (ℕ × Space)).foldl
    (ParkingLot.findStep c2VehB.pos) none).map (·.1)) = some 0
  rw [List.foldl_cons, List.foldl_cons, List.foldl_nil]
  have hs1 : ParkingLot.findStep c2VehB.pos none (0, c2SpaceA) = some (0, 34/5) := by
    simp [ParkingLot.findStep, c2SpaceA_occ, h1]
  have hs2 : ParkingLot.findStep c2VehB.pos (some (0, 34/5)) (1, c2SpaceB) = some (0, 34/5) := by
    simp [ParkingLot.findStep, c2SpaceB_occ, h2]
    norm_num
  rw [hs1, hs2]
  rfl

theorem c2_targetPos : targetPosition c2Lot (Target.lot 0) = ⟨0, 0, -7⟩ := by
  show ((c2Lot.spaces.get? 0).map (·.position)).getD ⟨0, 0, 0⟩ = _
  rw [c2Lot_spaces]
  rfl

theorem c2_targetRot : targetRotation c2Lot (Target.lot 0) = Real.pi := by
  show ((c2Lot.spaces.get? 0).map (·.rotation)).getD 0 = _
  rw [c2Lot_spaces]
  rfl

theorem c2_targetPosOcc : targetPosition c2LotOcc (Target.lot 0) = ⟨0, 0, -7⟩ := rfl

theorem c2_targetRotOcc : targetRotation c2LotOcc (Target.lot 0) = Real.pi := rfl

theorem c2_distA : Vehicle.distanceToTarget c2Lot c2VehA1 (Target.lot 0) = 1/2 := by
  unfold Vehicle.distanceToTarget Vehicle.dirToTarget
  rw [c2_targetPos]
  have hsub : (⟨0, 0, -7⟩ : Vec3).sub c2VehA1.pos = ⟨0, 0, -13/2⟩ := by
    show (⟨0, 0, -7⟩ : Vec3).sub ⟨0, 0, -1/2⟩ = ⟨0, 0, -13/2⟩
    ext <;> norm_num [Vec3.sub]
  rw [hsub, normalize_zNeg (by norm_num : (-13/2 : ℝ) < 0)]
  show Vec3.distanceTo ⟨0, 0, -1/2⟩ ⟨0, 0, -1⟩ = 1/2
  rw [distanceTo_zAxis]
  norm_num

theorem c2_distB : Vehicle.distanceToTarget c2LotOcc c2VehB1 (Target.lot 0) = 4/5 := by
  unfold Vehicle.distanceToTarget Vehicle.dirToTarget
  rw [c2_targetPosOcc]
  have hsub : (⟨0, 0, -7⟩ : Vec3).sub c2VehB1.pos = ⟨0, 0, -34/5⟩ := by
    show (⟨0, 0, -7⟩ : Vec3).sub ⟨0, 0, -1/5⟩ = ⟨0, 0, -34/5⟩
    ext <;> norm_num [Vec3.sub]
  rw [hsub, normalize_zNeg (by norm_num : (-34/5 : ℝ) < 0)]
  show Vec3.distanceTo ⟨0, 0, -1/5⟩ ⟨0, 0, -1⟩ = 4/5
  rw [distanceTo_zAxis]
  norm_num

theorem c2_setA : c2Lot.setSpaceOccupied (some (Target.lot 0)) true = c2LotOcc := by
  rw [setSpaceOccupied_lot_eq]
  have hg : c2Lot.spaces.get? 0 = some c2SpaceA := by rw [c2Lot_spaces]; rfl
  rw [hg]
  show { c2Lot with spaces := (c2Lot.spaces.set 0 { c2SpaceA with occupied := true, tint := 0x555555 }) } = c2LotOcc
  rw [c2Lot_spaces]
  rfl

theorem c2_setAOcc : c2LotOcc.setSpaceOccupied (some (Target.lot 0)) true = c2LotOcc := by
  rw [setSpaceOccupied_lot_eq]
  have hg : c2LotOcc.spaces.get? 0 = some c2SpaceAOcc := rfl
  rw [hg]
  rfl

theorem c2_stepA0 : c2VehA.update 1 c2Lot false = (c2VehA1, c2Lot) := by
  rw [update_moving c2VehA c2Lot 1 false rfl, updateMoving_noTarget c2VehA c2Lot 1 rfl,
    findParkingSpace_found c2VehA c2Lot 0 c2_findA]
  rfl

theorem c2_stepB0 : c2VehB.update 1 c2Lot false = (c2VehB1, c2Lot) := by
  rw [update_moving c2VehB c2Lot 1 false rfl, updateMoving_noTarget c2VehB c2Lot 1 rfl,
    findParkingSpace_found c2VehB c2Lot 0 c2_findB]
  rfl

theorem c2_stepA1 : c2VehA1.update 1 c2Lot false = (c2VehA2, c2LotOcc) := by
  rw [update_moving c2VehA1 c2Lot 1 false rfl,
    updateMoving_park c2VehA1 c2Lot 1 (Target.lot 0) rfl (by rw [c2_distA]; norm_num),
    c2_targetPos, c2_targetRot, c2_setA]
  rfl

theorem c2_stepB1 : c2VehB1.update 1 c2LotOcc false = (c2VehB2, c2LotOcc) := by
  rw [update_moving c2VehB1 c2LotOcc 1 false rfl,
    updateMoving_park c2VehB1 c2LotOcc 1 (Target.lot 0) rfl (by rw [c2_distB]; norm_num),
    c2_targetPosOcc, c2_targetRotOcc, c2_setAOcc]
  rfl

/-- The simulation state after two ticks of the double-occupancy scenario. -/
def c2S2 : SimState := tickState (tickState c2S0 1 [false, false]) 1 [false, false]

theorem c2_tick1 : tickState c2S0 1 [false, false] =
    ⟨c2Lot, [c2VehA1, c2VehB1], updateStats [c2VehA1, c2VehB1] c2Stats0⟩ := by
  show tickState ⟨c2Lot, [c2VehA, c2VehB], c2Stats0⟩ 1 [false, false] = _
  simp only [tickState, tickVehicles, List.headD_cons, List.tail_cons, c2_stepA0, c2_stepB0]

theorem c2_tick2 :
    tickState (⟨c2Lot, [c2VehA1, c2VehB1], updateStats [c2VehA1, c2VehB1] c2Stats0⟩ : SimState)
      1 [false, false] =
    ⟨c2LotOcc, [c2VehA2, c2VehB2],
      updateStats [c2VehA2, c2VehB2] (updateStats [c2VehA1, c2VehB1] c2Stats0)⟩ := by
  simp only [tickState, tickVehicles, List.headD_cons, List.tail_cons, c2_stepA1, c2_stepB1]

theorem c2S2_eq : c2S2 =
    ⟨c2LotOcc, [c2VehA2, c2VehB2],
      updateStats [c2VehA2, c2VehB2] (updateStats [c2VehA1, c2VehB1] c2Stats0)⟩ := by
  unfold c2S2
  rw [c2_tick1, c2_tick2]

theorem c2_init : SimInit c2S0 := by
  refine ⟨?_, ?_, ?_⟩
  · intro v hv
    have hv2 : v ∈ ([c2VehA, c2VehB] : List Vehicle) := hv
    have hv' : v = c2VehA ∨ v = c2VehB := by simpa using hv2
    rcases hv' with rfl | rfl
    · exact ⟨rfl, rfl⟩
    · exact ⟨rfl, rfl⟩
  · intro i j si sj hi hj hpos
    have hi' : ([c2SpaceA, c2SpaceB] : List Space).get? i = some si := by
      rw [← c2Lot_spaces]; exact hi
    have hj' : ([c2SpaceA, c2SpaceB] : List Space).get? j = some sj := by
      rw [← c2Lot_spaces]; exact hj
    match i, j with
    | 0, 0 => rfl
    | 1, 1 => rfl
    | 0, 1 =>
        exfalso
        cases Option.some.inj hi'
        cases Option.some.inj hj'
        have hz := congrArg Vec3.z hpos
        norm_num [c2SpaceA, c2SpaceB] at hz
    | 1, 0 =>
        exfalso
        cases Option.some.inj hi'
        cases Option.some.inj hj'
        have hz := congrArg Vec3.z hpos
        norm_num [c2SpaceA, c2SpaceB] at hz
    | 0, n + 2 => cases hj'
    | 1, n + 2 => cases hj'
    | n + 2, _ => cases hi'
  · intro s hs
    have hs' : s = c2SpaceA ∨ s = c2SpaceB := by
      have : s ∈ ([c2SpaceA, c2SpaceB] : List Space) := by rw [← c2Lot_spaces]; exact hs
      simpa using this
    rcases hs' with rfl | rfl
    · intro h
      have hx := congrArg Vec3.x h
      norm_num [c2SpaceA] at hx
    · intro h
      have hx := congrArg Vec3.x h
      norm_num [c2SpaceB] at hx

/-- C2 (counterexample): from a legitimately constructed 1×1 lot with two
moving vehicles, two ticks leave both vehicles simultaneously parked in
(snapped to and occupying) space 0 — two distinct vehicles hold the same
space as occupied at the same time, contradicting the claimed invariant. -/
theorem c2_two_vehicles_occupy_same_space :
    SimInit c2S0 ∧
    c2S2.vehicles.get? 0 = some c2VehA2 ∧
    c2S2.vehicles.get? 1 = some c2VehB2 ∧
    c2VehA2.state = VState.parked ∧ c2VehB2.state = VState.parked ∧
    c2VehA2.target = some (Target.lot 0) ∧ c2VehB2.target = some (Target.lot 0) ∧
    c2VehA2.pos = c2VehB2.pos ∧
    c2S2.lot.spaces.get? 0 = some c2SpaceAOcc ∧ c2SpaceAOcc.occupied = true ∧
    c2VehA2.pos = c2SpaceAOcc.position := by
  refine ⟨c2_init, ?_, ?_, rfl, rfl, rfl, rfl, rfl, ?_, rfl, rfl⟩
  · rw [c2S2_eq]; rfl
  · rw [c2S2_eq]; rfl
  · rw [c2S2_eq]; rfl

/-- Witness for the amended C2 theorem: the two concretely parked vehicles of
the scenario satisfy all its hypotheses, and it yields their target equality. -/
theorem parked_same_position_same_target_witness :
    SimInit c2S0 ∧ Reachable c2S0 c2S2 ∧
    c2VehA2.state = VState.parked ∧ c2VehB2.state = VState.parked ∧
    c2VehA2.pos = c2VehB2.pos ∧ c2VehA2.target = c2VehB2.target := by
  have hreach : Reachable c2S0 c2S2 :=
    Reachable.tick (Reachable.tick (Reachable.refl c2S0) 1 (by norm_num) [false, false])
      1 (by norm_num) [false, false]
  refine ⟨c2_init, hreach, rfl, rfl, rfl, ?_⟩
  exact @parked_same_position_same_target c2S0 c2S2 c2_init hreach 0 1 (by decide)
    c2VehA2 c2VehB2 (by rw [c2S2_eq]; rfl) (by rw [c2S2_eq]; rfl) rfl rfl rfl

/-! ### C3, C7, C8, C9 -/

/-- C3: for every query position, `findAvailableSpace` returns an unoccupied
space of minimal Euclidean distance among all unoccupied spaces (ties broken
by iteration order: every unoccupied space at a smaller index is strictly
farther, so the first minimal one wins), never returns an occupied space, and
returns `none` exactly when every space is occupied. -/
theorem findAvailableSpace_correct (lot : ParkingLot) (p : Vec3) :
    (∀ i, lot.findAvailableSpace p = some i →
      ∃ s, lot.spaces.get? i = some s ∧ s.occupied = false ∧
        (∀ s' ∈ lot.spaces, s'.occupied = false →
            Vec3.distanceTo p s.position ≤ Vec3.distanceTo p s'.position) ∧
        (∀ m s', m < i → lot.spaces.get? m = some s' → s'.occupied = false →
            Vec3.distanceTo p s.position < Vec3.distanceTo p s'.position)) ∧
    (lot.findAvailableSpace p = none ↔ ∀ s ∈ lot.spaces, s.occupied = true) :=
  ⟨fun _ h => findAvailableSpace_spec h, findAvailableSpace_none_iff lot p⟩

/-- Witness for C3: on the half-occupied 1×1 lot the scan returns space 1,
which is indeed unoccupied. -/
theorem findAvailableSpace_correct_witness :
    c2LotOcc.findAvailableSpace ⟨0, 0, 0⟩ = some 1 ∧
    (∃ s, c2LotOcc.spaces.get? 1 = some s ∧ s.occupied = false) := by
  have hfind : c2LotOcc.findAvailableSpace ⟨0, 0, 0⟩ = some 1 := by
    unfold ParkingLot.findAvailableSpace
    show ((([(0, c2SpaceAOcc), (1, c2SpaceB)] : List (ℕ × Space)).foldl
      (ParkingLot.findStep ⟨0, 0, 0⟩) none).map (·.1)) = some 1
    rw [List.foldl_cons, List.foldl_cons, List.foldl_nil]
    have hs1 : ParkingLot.findStep ⟨0, 0, 0⟩ none (0, c2SpaceAOcc) = none := by
      simp [ParkingLot.findStep, show c2SpaceAOcc.occupied = true from rfl]
    have hs2 : ParkingLot.findStep ⟨0, 0, 0⟩ none (1, c2SpaceB) =
        some (1, Vec3.distanceTo ⟨0, 0, 0⟩ c2SpaceB.position) := by
      simp [ParkingLot.findStep, show c2SpaceB.occupied = false from rfl]
    rw [hs1, hs2]
    rfl
  refine ⟨hfind, ?_⟩
  obtain ⟨s, hs, hocc, -, -⟩ := (findAvailableSpace_correct c2LotOcc ⟨0, 0, 0⟩).1 1 hfind
  exact ⟨s, hs, hocc⟩

/-- C7: `setSpaceOccupied` sets the occupancy flag (and tint) of the given
space iff its reference is a member of the collection; called with `null`, the
synthetic exit object, or a stale index it is a no-op (the whole lot,
including `spaces.length` and every flag, is unchanged); and in every case the
length and all fields other than occupancy and tint are untouched. -/
theorem setSpaceOccupied_iff_member (lot : ParkingLot) (t : Option Target) (b : Bool) :
    (∀ i s, t = some (Target.lot i) → lot.spaces.get? i = some s →
      (lot.setSpaceOccupied t b).spaces.get? i =
        some { s with occupied := b, tint := if b then 0x555555 else 0x666666 } ∧
      ∀ j, j ≠ i → (lot.setSpaceOccupied t b).spaces.get? j = lot.spaces.get? j) ∧
    ((t = none ∨ (∃ q r, t = some (Target.exitAt q r)) ∨
        (∃ i, t = some (Target.lot i) ∧ lot.spaces.length ≤ i)) →
      lot.setSpaceOccupied t b = lot) ∧
    (lot.setSpaceOccupied t b).spaces.length = lot.spaces.length ∧
    (lot.setSpaceOccupied t b).spaces.map Space.frame = lot.spaces.map Space.frame := by
  refine ⟨?_, setSpaceOccupied_foreign lot t b, setSpaceOccupied_length lot t b,
    setSpaceOccupied_frame lot t b⟩
  intro i s hti hgs
  subst hti
  exact ⟨setSpaceOccupied_get_eq lot i b s hgs,
    fun j hj => setSpaceOccupied_get_ne lot i b j hj⟩

/-- Witness for C7: on the 1×1 lot, occupying member space 0 flips exactly its
flag, and the call on a foreign (exit) object is a no-op. -/
theorem setSpaceOccupied_iff_member_witness :
    c2Lot.spaces.get? 0 = some c2SpaceA ∧
    (c2Lot.setSpaceOccupied (some (Target.lot 0)) true).spaces.get? 0 =
      some { c2SpaceA with occupied := true, tint := 0x555555 } ∧
    c2Lot.setSpaceOccupied (some (Target.exitAt ⟨-50, 0, 0⟩ 0)) true = c2Lot := by
  have hg : c2Lot.spaces.get? 0 = some c2SpaceA := by rw [c2Lot_spaces]; rfl
  refine ⟨hg, ?_, ?_⟩
  · exact ((setSpaceOccupied_iff_member c2Lot (some (Target.lot 0)) true).1 0 c2SpaceA rfl hg).1
  · exact (setSpaceOccupied_iff_member c2Lot (some (Target.exitAt ⟨-50, 0, 0⟩ 0)) true).2.1
      (Or.inr (Or.inl ⟨_, _, rfl⟩))

theorem createParkingSpaces_length (rows columns : ℕ) (w l a tw : ℝ) :
    (createParkingSpaces rows columns w l a tw).length = 2 * rows * columns := by
  unfold createParkingSpaces
  rw [show List.range 2 = [0, 1] from rfl]
  simp only [List.length_flatMap, List.map_cons, List.map_nil, List.sum_cons, List.sum_nil,
    List.map_map, Function.comp_apply]
  have h : ∀ g : ℕ → ℕ → Space,
      (List.map (List.length ∘ fun row => List.map (g row) (List.range columns))
        (List.range rows)).sum = rows * columns := by
    intro g
    have hc : (List.length ∘ fun row => List.map (g row) (List.range columns)) =
        fun _ => columns := by
      funext row
      simp
    rw [hc, List.map_const', List.sum_replicate, List.length_range, smul_eq_mul]
  rw [h, h]
  ring

/-- C8: a constructed lot has exactly `2 × rows × columns` spaces, and the
space count is preserved by every subsequent tick of the session (no space is
ever added or removed). -/
theorem lot_size_invariant (rows? columns? : Option ℕ)
    (spaceWidth? spaceLength? aisleWidth? : Option ℝ) (σ0 σ : SimState)
    (h0 : σ0.lot = mkParkingLot rows? columns? spaceWidth? spaceLength? aisleWidth?)
    (hr : Reachable σ0 σ) :
    σ0.lot.spaces.length = 2 * σ0.lot.rows * σ0.lot.columns ∧
    σ.lot.spaces.length = σ0.lot.spaces.length := by
  constructor
  · rw [h0]
    exact createParkingSpaces_length _ _ _ _ _ _
  · exact lotGeom_length (reachable_geom hr)

/-- Witness for C8: the constructed 1×1 lot of the scenario has `2 = 2 × 1 × 1`
spaces, also after zero ticks. -/
theorem lot_size_invariant_witness :
    c2S0.lot = mkParkingLot (some 1) (some 1) (some 3) (some 6) (some 8) ∧
    c2S0.lot.spaces.length = 2 * c2S0.lot.rows * c2S0.lot.columns ∧
    c2S0.lot.spaces.length = 2 := by
  refine ⟨rfl, (lot_size_invariant (some 1) (some 1) (some 3) (some 6) (some 8)
    c2S0 c2S0 rfl (Reachable.refl c2S0)).1, ?_⟩
  show c2Lot.spaces.length = 2
  rw [c2Lot_spaces]
  rfl

theorem statsTally_total (vs : List Vehicle) :
    ∀ acc : ℕ × ℕ × ℕ × ℝ,
      (vs.foldl statsTally acc).2.2.2 = acc.2.2.2 + (vs.map Vehicle.getWaitTime).sum := by
  induction vs with
  | nil => intro acc; simp
  | cons v vs ih =>
      intro acc
      rw [List.foldl_cons, ih]
      show (statsTally acc v).2.2.2 + (vs.map Vehicle.getWaitTime).sum = _
      rw [show (statsTally acc v).2.2.2 = acc.2.2.2 + v.getWaitTime from rfl]
      simp [List.sum_cons]
      ring

/-- C9: after each stats recomputation, `averageWaitTime` is the arithmetic
mean over all vehicles of each vehicle's wait contribution (`waitTime` when
`waiting`, `0` otherwise), and it is exactly `0` for an empty vehicle
collection. -/
theorem averageWaitTime_mean (vehicles : List Vehicle) (prev : Stats) :
    (updateStats vehicles prev).averageWaitTime =
      (if 0 < vehicles.length
        then (vehicles.map Vehicle.getWaitTime).sum / (vehicles.length : ℝ) else 0) ∧
    (updateStats [] prev).averageWaitTime = 0 := by
  constructor
  · show (if 0 < vehicles.length
        then (vehicles.foldl statsTally (0, 0, 0, 0)).2.2.2 / (vehicles.length : ℝ) else 0) = _
    rw [statsTally_total vehicles (0, 0, 0, 0)]
    norm_num
  · rfl

/-! ### C5: departure and no double-release -/

/-- A run of ticks of a single vehicle against the allocator (the interleaving
with other vehicles does not matter for this vehicle's own allocator calls). -/
def runVehicle : Vehicle → ParkingLot → List (ℝ × Bool) → Vehicle × ParkingLot
  | v, lot, [] => (v, lot)
  | v, lot, step :: steps => runVehicle (v.update step.1 lot step.2).1
      (v.update step.1 lot step.2).2 steps

/-- After a departure the vehicle is bound for the exit: its target is the
synthetic exit object and it is either driving or "parked" at the exit. -/
def ExitBound (v : Vehicle) : Prop :=
  v.target = some (Target.exitAt ⟨-50, 0, 0⟩ 0) ∧
  (v.state = VState.moving ∨ v.state = VState.parked)

theorem exitBound_step (v : Vehicle) (lot : ParkingLot) (dt : ℝ) (dep : Bool)
    (h : ExitBound v) :
    ExitBound (v.update dt lot dep).1 ∧ (v.update dt lot dep).2 = lot := by
  obtain ⟨ht, hs⟩ := h
  rcases hs with hs | hs
  · rw [update_moving v lot dt dep hs]
    by_cases hd1 : Vehicle.distanceToTarget lot v (Target.exitAt ⟨-50, 0, 0⟩ 0) < 1
    · rw [updateMoving_park v lot dt (Target.exitAt ⟨-50, 0, 0⟩ 0) ht hd1]
      refine ⟨⟨ht, Or.inr rfl⟩, ?_⟩
      exact setSpaceOccupied_foreign lot (some (Target.exitAt ⟨-50, 0, 0⟩ 0)) true
        (Or.inr (Or.inl ⟨_, _, rfl⟩))
    · by_cases hd5 : Vehicle.distanceToTarget lot v (Target.exitAt ⟨-50, 0, 0⟩ 0) < 5
      · rw [updateMoving_decel v lot dt (Target.exitAt ⟨-50, 0, 0⟩ 0) ht hd1 hd5]
        exact ⟨⟨ht, Or.inl hs⟩, rfl⟩
      · rw [updateMoving_accel v lot dt (Target.exitAt ⟨-50, 0, 0⟩ 0) ht hd1 hd5]
        exact ⟨⟨ht, Or.inl hs⟩, rfl⟩
  · rw [update_parked v lot dt dep hs]
    rcases dep with _ | _
    · exact ⟨⟨ht, Or.inr hs⟩, rfl⟩
    · simp only [if_true]
      rw [leaveParking_some v lot _ ht]
      refine ⟨⟨rfl, Or.inl rfl⟩, ?_⟩
      exact setSpaceOccupied_foreign lot (some (Target.exitAt ⟨-50, 0, 0⟩ 0)) false
        (Or.inr (Or.inl ⟨_, _, rfl⟩))

theorem runVehicle_exitBound (steps : List (ℝ × Bool)) :
    ∀ (v : Vehicle) (lot : ParkingLot), ExitBound v →
      (runVehicle v lot steps).2 = lot ∧ ExitBound (runVehicle v lot steps).1 := by
  induction steps with
  | nil => intro v lot h; exact ⟨rfl, h⟩
  | cons step steps ih =>
      intro v lot h
      obtain ⟨h1, h2⟩ := exitBound_step v lot step.1 step.2 h
      show (runVehicle (v.update step.1 lot step.2).1 (v.update step.1 lot step.2).2 steps).2 =
          lot ∧ _
      obtain ⟨hrun, hbound⟩ := ih (v.update step.1 lot step.2).1 (v.update step.1 lot step.2).2 h1
      exact ⟨hrun.trans h2, hbound⟩

/-- C5: a departing `parked` vehicle holding space `i` sets exactly that
space's flag to `false` (all other spaces untouched), retargets to the fixed
off-lot exit coordinate `(-50, 0, 0)` and transitions to `moving`; every
subsequent run of ticks of this vehicle leaves the allocator completely
unchanged (no double-release, since the exit object is never a member of the
collection); and a departure attempt without a target is a no-op. -/
theorem leaveParking_correct (v : Vehicle) (lot : ParkingLot) (i : ℕ) (s : Space)
    (_hs : v.state = VState.parked) (ht : v.target = some (Target.lot i))
    (hg : lot.spaces.get? i = some s) :
    ((v.leaveParking lot).2.spaces.get? i =
        some { s with occupied := false, tint := 0x666666 } ∧
      (∀ j, j ≠ i → (v.leaveParking lot).2.spaces.get? j = lot.spaces.get? j) ∧
      (v.leaveParking lot).1.target = some (Target.exitAt ⟨-50, 0, 0⟩ 0) ∧
      (v.leaveParking lot).1.state = VState.moving) ∧
    (∀ steps, (runVehicle (v.leaveParking lot).1 (v.leaveParking lot).2 steps).2 =
        (v.leaveParking lot).2) ∧
    (∀ w : Vehicle, w.target = none → w.leaveParking lot = (w, lot)) := by
  rw [leaveParking_some v lot _ ht]
  refine ⟨⟨?_, ?_, rfl, rfl⟩, ?_, ?_⟩
  · exact setSpaceOccupied_get_eq lot i false s hg
  · intro j hj
    exact setSpaceOccupied_get_ne lot i false j hj
  · intro steps
    exact (runVehicle_exitBound steps _ _ ⟨rfl, Or.inl rfl⟩).1
  · intro w hw
    exact leaveParking_none w lot hw

/-- A concretely parked vehicle holding space 0 of the occupied 1×1 lot. -/
def c5Veh : Vehicle :=
  ⟨VType.car, ⟨0, 0, -7⟩, Real.pi, VState.parked, some (Target.lot 0), 0, 0⟩

/-- Witness for C5: the departure of the concrete parked vehicle frees space 0
and turns the vehicle into a moving, exit-bound one. -/
theorem leaveParking_correct_witness :
    c5Veh.state = VState.parked ∧ c5Veh.target = some (Target.lot 0) ∧
    c2LotOcc.spaces.get? 0 = some c2SpaceAOcc ∧
    (c5Veh.leaveParking c2LotOcc).2.spaces.get? 0 =
      some { c2SpaceAOcc with occupied := false, tint := 0x666666 } ∧
    (c5Veh.leaveParking c2LotOcc).1.state = VState.moving := by
  have h := leaveParking_correct c5Veh c2LotOcc 0 c2SpaceAOcc rfl rfl rfl
  exact ⟨rfl, rfl, rfl, h.1.1, h.1.2.2.2⟩

/-! ### C4: the snap-to-park condition -/

/-- A vehicle half a unit away from its target space (space 0 of the 1×1 lot,
at `(0, 0, -7)`). -/
def c4Veh : Vehicle :=
  ⟨VType.car, ⟨0, 0, -13/2⟩, 0, VState.moving, some (Target.lot 0), 0, 0⟩

/-- C4, the code evaluated at the failing input: the vehicle starts the tick
0.5 < 1 units from its target space, yet after the tick it is still `moving`
— not `parked` — and the space is still unoccupied, because the branch tests
the distance to the in-place-normalised direction vector (5.5 here, taking
the acceleration branch) instead of the distance to the target. -/
theorem c4_failing_input :
    Vec3.distanceTo c4Veh.pos (targetPosition c2Lot (Target.lot 0)) = 1/2 ∧
    Vehicle.distanceToTarget c2Lot c4Veh (Target.lot 0) = 11/2 ∧
    (c4Veh.update 1 c2Lot false).1.state = VState.moving ∧
    (c4Veh.update 1 c2Lot false).2 = c2Lot := by
  have h1 : Vec3.distanceTo c4Veh.pos (targetPosition c2Lot (Target.lot 0)) = 1/2 := by
    rw [c2_targetPos]
    show Vec3.distanceTo ⟨0, 0, -13/2⟩ ⟨0, 0, -7⟩ = 1/2
    rw [distanceTo_zAxis]
    norm_num
  have hdir : Vehicle.dirToTarget c2Lot c4Veh (Target.lot 0) = ⟨0, 0, -1⟩ := by
    unfold Vehicle.dirToTarget
    rw [c2_targetPos]
    have hsub : (⟨0, 0, -7⟩ : Vec3).sub c4Veh.pos = ⟨0, 0, -1/2⟩ := by
      show (⟨0, 0, -7⟩ : Vec3).sub ⟨0, 0, -13/2⟩ = ⟨0, 0, -1/2⟩
      ext <;> norm_num [Vec3.sub]
    rw [hsub, normalize_zNeg (by norm_num : (-1/2 : ℝ) < 0)]
  have h2 : Vehicle.distanceToTarget c2Lot c4Veh (Target.lot 0) = 11/2 := by
    unfold Vehicle.distanceToTarget
    rw [hdir]
    show Vec3.distanceTo ⟨0, 0, -13/2⟩ ⟨0, 0, -1⟩ = 11/2
    rw [distanceTo_zAxis]
    norm_num
  refine ⟨h1, h2, ?_, ?_⟩
  · rw [update_moving c4Veh c2Lot 1 false rfl,
      updateMoving_accel c4Veh c2Lot 1 (Target.lot 0) rfl
        (by rw [h2]; norm_num) (by rw [h2]; norm_num)]
    rfl
  · rw [update_moving c4Veh c2Lot 1 false rfl,
      updateMoving_accel c4Veh c2Lot 1 (Target.lot 0) rfl
        (by rw [h2]; norm_num) (by rw [h2]; norm_num)]

/-! ### C6: the speed update -/

/-- A stopped vehicle 4 units from its target space, inside the code's
deceleration zone (aliased distance 2). -/
def c6Veh : Vehicle :=
  ⟨VType.car, ⟨0, 0, -3⟩, 0, VState.moving, some (Target.lot 0), 0, 0⟩

theorem c6_buggyDist : Vehicle.distanceToTarget c2Lot c6Veh (Target.lot 0) = 2 := by
  have hdir : Vehicle.dirToTarget c2Lot c6Veh (Target.lot 0) = ⟨0, 0, -1⟩ := by
    unfold Vehicle.dirToTarget
    rw [c2_targetPos]
    have hsub : (⟨0, 0, -7⟩ : Vec3).sub c6Veh.pos = ⟨0, 0, -4⟩ := by
      show (⟨0, 0, -7⟩ : Vec3).sub ⟨0, 0, -3⟩ = ⟨0, 0, -4⟩
      ext <;> norm_num [Vec3.sub]
    rw [hsub, normalize_zNeg (by norm_num : (-4 : ℝ) < 0)]
  unfold Vehicle.distanceToTarget
  rw [hdir]
  show Vec3.distanceTo ⟨0, 0, -3⟩ ⟨0, 0, -1⟩ = 2
  rw [distanceTo_zAxis]
  norm_num

/-- C6 (counterexample): a stopped vehicle 4 ≥ 1 units from its target, with
`dt = 0.1`, has its speed jump from `0` to the floor `0.5` in one tick — a
change of magnitude `0.5`, exceeding `acceleration × dt = 0.2`. -/
theorem c6_speed_jump_exceeds_accel :
    Vec3.distanceTo c6Veh.pos (targetPosition c2Lot (Target.lot 0)) = 4 ∧
    c6Veh.speed = 0 ∧
    (c6Veh.update (1/10) c2Lot false).1.speed = 1/2 ∧
    ¬ |(c6Veh.update (1/10) c2Lot false).1.speed - c6Veh.speed| ≤
        c6Veh.acceleration * (1/10) := by
  have h1 : Vec3.distanceTo c6Veh.pos (targetPosition c2Lot (Target.lot 0)) = 4 := by
    rw [c2_targetPos]
    show Vec3.distanceTo ⟨0, 0, -3⟩ ⟨0, 0, -7⟩ = 4
    rw [distanceTo_zAxis]
    norm_num
  have hupd : (c6Veh.update (1/10) c2Lot false).1.speed = 1/2 := by
    rw [update_moving c6Veh c2Lot (1/10) false rfl,
      updateMoving_decel c6Veh c2Lot (1/10) (Target.lot 0) rfl
        (by rw [c6_buggyDist]; norm_num) (by rw [c6_buggyDist]; norm_num)]
    show max (c6Veh.speed - c6Veh.acceleration * (1/10)) 0.5 = 1/2
    show max ((0 : ℝ) - 2 * (1/10)) 0.5 = 1/2
    rw [max_eq_right (by norm_num)]
    norm_num
  refine ⟨h1, rfl, hupd, ?_⟩
  rw [hupd]
  show ¬ |(1/2 : ℝ) - 0| ≤ 2 * (1/10)
  rw [abs_of_nonneg (by norm_num : (0:ℝ) ≤ 1/2 - 0)]
  norm_num

/-- C6 (amended): for a moving vehicle with a target, the speed branches are
selected by the aliased distance (position to the unit direction vector, not
to the target).  Outside the snap branch the speed is set to
`max (speed − a·dt) 0.5` when that distance is < 5 and to
`min (speed + a·dt) maxSpeed` otherwise; it always stays within
`[0, maxSpeed]` given it started there, and the change is bounded in magnitude
by `a·dt = 2·dt` in the acceleration branch — and in the deceleration branch
only when the speed is already at least the 0.5 floor (a slower vehicle jumps
straight up to 0.5). -/
theorem speed_update_bounds (v : Vehicle) (lot : ParkingLot) (t : Target) (dt : ℝ)
    (hs : v.state = VState.moving) (ht : v.target = some t) (hdt : 0 ≤ dt)
    (hd1 : ¬ Vehicle.distanceToTarget lot v t < 1)
    (h0 : 0 ≤ v.speed) (hmax : v.speed ≤ v.maxSpeed) :
    0 ≤ (v.update dt lot false).1.speed ∧
    (v.update dt lot false).1.speed ≤ v.maxSpeed ∧
    (Vehicle.distanceToTarget lot v t < 5 →
      (v.update dt lot false).1.speed = max (v.speed - v.acceleration * dt) 0.5 ∧
      (0.5 ≤ v.speed →
        |(v.update dt lot false).1.speed - v.speed| ≤ v.acceleration * dt)) ∧
    (¬ Vehicle.distanceToTarget lot v t < 5 →
      (v.update dt lot false).1.speed = min (v.speed + v.acceleration * dt) v.maxSpeed ∧
      |(v.update dt lot false).1.speed - v.speed| ≤ v.acceleration * dt) := by
  have hhalf : (0.5 : ℝ) ≤ v.maxSpeed := by
    unfold Vehicle.maxSpeed
    split <;> norm_num
  have hacc : v.acceleration = 2 := rfl
  rw [update_moving v lot dt false hs]
  by_cases hd5 : Vehicle.distanceToTarget lot v t < 5
  · rw [updateMoving_decel v lot dt t ht hd1 hd5]
    have hspeed : ({ v with
        rot := v.rot + Vehicle.turnAmount lot v t dt
        speed := max (v.speed - v.acceleration * dt) 0.5
        pos := v.pos + (max (v.speed - v.acceleration * dt) 0.5 * dt) •
          Vec3.rotateY (v.rot + Vehicle.turnAmount lot v t dt) ⟨0, 0, -1⟩ } : Vehicle).speed =
        max (v.speed - v.acceleration * dt) 0.5 := rfl
    rw [hspeed]
    refine ⟨by positivity, ?_, fun _ => ⟨rfl, fun hfloor => ?_⟩, fun h5 => absurd hd5 h5⟩
    · apply max_le
      · rw [hacc]; linarith
      · exact hhalf
    · rw [abs_le]
      constructor
      · have := le_max_left (v.speed - v.acceleration * dt) 0.5
        linarith
      · have h1 : max (v.speed - v.acceleration * dt) 0.5 ≤ v.speed := by
          apply max_le
          · rw [hacc]; linarith
          · exact hfloor
        rw [hacc] at h1 ⊢
        linarith
  · rw [updateMoving_accel v lot dt t ht hd1 hd5]
    have hspeed : ({ v with
        rot := v.rot + Vehicle.turnAmount lot v t dt
        speed := min (v.speed + v.acceleration * dt) v.maxSpeed
        pos := v.pos + (min (v.speed + v.acceleration * dt) v.maxSpeed * dt) •
          Vec3.rotateY (v.rot + Vehicle.turnAmount lot v t dt) ⟨0, 0, -1⟩ } : Vehicle).speed =
        min (v.speed + v.acceleration * dt) v.maxSpeed := rfl
    rw [hspeed]
    have hlow : v.speed ≤ min (v.speed + v.acceleration * dt) v.maxSpeed := by
      apply le_min
      · rw [hacc]; linarith
      · exact hmax
    refine ⟨by linarith, min_le_right _ _, fun h5 => absurd h5 hd5, fun _ => ⟨rfl, ?_⟩⟩
    rw [abs_le]
    constructor
    · rw [hacc] at hlow ⊢
      linarith
    · have := min_le_left (v.speed + v.acceleration * dt) v.maxSpeed
      rw [hacc] at this ⊢
      linarith

/-- Witness for the amended C6 theorem at the concrete stopped vehicle. -/
theorem speed_update_bounds_witness :
    ((0 : ℝ) ≤ 1/10) ∧ (¬ Vehicle.distanceToTarget c2Lot c6Veh (Target.lot 0) < 1) ∧
    (0 ≤ c6Veh.speed ∧ c6Veh.speed ≤ c6Veh.maxSpeed) ∧
    0 ≤ (c6Veh.update (1/10) c2Lot false).1.speed ∧
    (c6Veh.update (1/10) c2Lot false).1.speed ≤ c6Veh.maxSpeed := by
  have hd1 : ¬ Vehicle.distanceToTarget c2Lot c6Veh (Target.lot 0) < 1 := by
    rw [c6_buggyDist]
    norm_num
  have h0 : (0 : ℝ) ≤ c6Veh.speed := le_refl 0
  have hmax : c6Veh.speed ≤ c6Veh.maxSpeed := by
    show (0 : ℝ) ≤ c6Veh.maxSpeed
    unfold Vehicle.maxSpeed
    split <;> norm_num
  have h := speed_update_bounds c6Veh c2Lot (Target.lot 0) (1/10) rfl rfl
    (by norm_num) hd1 h0 hmax
  exact ⟨by norm_num, hd1, ⟨h0, hmax⟩, h.1, h.2.1⟩

/-! ### C10: the exit snap -/

/-- Distance between two points on the x-axis. -/
theorem distanceTo_xAxis (y xa xb : ℝ) :
    Vec3.distanceTo ⟨xa, y, 0⟩ ⟨xb, y, 0⟩ = |xa - xb| := by
  show Real.sqrt ((xa - xb : ℝ) ^ 2 + (y - y) ^ 2 + (0 - 0) ^ 2) = |xa - xb|
  rw [show ((xa - xb : ℝ) ^ 2 + (y - y) ^ 2 + (0 - 0) ^ 2) = (xa - xb) ^ 2 by ring]
  exact Real.sqrt_sq_eq_abs _

/-- Normalising a vector pointing down the x-axis. -/
theorem normalize_xNeg {x : ℝ} (hx : x < 0) :
    Vec3.normalize ⟨x, 0, 0⟩ = ⟨-1, 0, 0⟩ := by
  have hlen : Vec3.length ⟨x, 0, 0⟩ = -x := by
    show Real.sqrt (x ^ 2 + (0 : ℝ) ^ 2 + (0 : ℝ) ^ 2) = -x
    rw [show (x ^ 2 + (0 : ℝ) ^ 2 + (0 : ℝ) ^ 2) = (-x) ^ 2 by ring]
    exact Real.sqrt_sq (by linarith)
  unfold Vec3.normalize
  rw [hlen]
  unfold jsOrReal
  rw [if_neg (by linarith : ¬(-x : ℝ) = 0)]
  ext
  · show 1 / -x * x = -1
    rw [div_mul_eq_mul_div, one_mul, div_neg, div_self (ne_of_lt hx)]
  · simp
  · simp

/-- A departed vehicle half a unit before the exit point. -/
def c10Veh : Vehicle :=
  ⟨VType.car, ⟨-99/2, 0, 0⟩, 0, VState.moving, some (Target.exitAt ⟨-50, 0, 0⟩ 0), 0, 0⟩

theorem c10Veh_buggyDist :
    Vehicle.distanceToTarget c2Lot c10Veh (Target.exitAt ⟨-50, 0, 0⟩ 0) = 97/2 := by
  have hdir : Vehicle.dirToTarget c2Lot c10Veh (Target.exitAt ⟨-50, 0, 0⟩ 0) =
      ⟨-1, 0, 0⟩ := by
    unfold Vehicle.dirToTarget
    have hsub : (targetPosition c2Lot (Target.exitAt ⟨-50, 0, 0⟩ 0)).sub c10Veh.pos =
        ⟨-1/2, 0, 0⟩ := by
      show (⟨-50, 0, 0⟩ : Vec3).sub ⟨-99/2, 0, 0⟩ = ⟨-1/2, 0, 0⟩
      ext <;> norm_num [Vec3.sub]
    rw [hsub, normalize_xNeg (by norm_num : (-1/2 : ℝ) < 0)]
  unfold Vehicle.distanceToTarget
  rw [hdir]
  show Vec3.distanceTo ⟨-99/2, 0, 0⟩ ⟨-1, 0, 0⟩ = 97/2
  rw [distanceTo_xAxis]
  norm_num

/-- C10 (counterexample): a departed vehicle 0.5 < 1 units from the exit point
does *not* transition back to `parked` on this tick — the code's branch uses
the distance to the unit direction vector (48.5 here, so it accelerates and
stays `moving`). -/
theorem c10_exit_snap_misses :
    Vec3.distanceTo c10Veh.pos ⟨-50, 0, 0⟩ = 1/2 ∧
    c10Veh.target = some (Target.exitAt ⟨-50, 0, 0⟩ 0) ∧
    Vehicle.distanceToTarget c2Lot c10Veh (Target.exitAt ⟨-50, 0, 0⟩ 0) = 97/2 ∧
    (c10Veh.update 1 c2Lot false).1.state = VState.moving := by
  refine ⟨?_, rfl, c10Veh_buggyDist, ?_⟩
  · show Vec3.distanceTo ⟨-99/2, 0, 0⟩ ⟨-50, 0, 0⟩ = 1/2
    rw [distanceTo_xAxis]
    norm_num
  · rw [update_moving c10Veh c2Lot 1 false rfl,
      updateMoving_accel c10Veh c2Lot 1 (Target.exitAt ⟨-50, 0, 0⟩ 0) rfl
        (by rw [c10Veh_buggyDist]; norm_num) (by rw [c10Veh_buggyDist]; norm_num)]
    rfl

/-- C10 (amended): a departed vehicle transitions back to `parked` when the
*aliased* distance — from its position to the unit direction vector toward the
exit, not to the exit point itself — falls below 1.  It then snaps to the exit
point `(-50, 0, 0)` with heading `0`, the allocator is untouched (the occupy
call on the synthetic exit object is a no-op, no space flag is set), and while
it remains in this state the stats snapshot counts it among `parkedVehicles`
and `occupiedSpaces`. -/
theorem exit_snap_parks (v : Vehicle) (lot : ParkingLot) (dt : ℝ) (dep : Bool) (prev : Stats)
    (hs : v.state = VState.moving)
    (ht : v.target = some (Target.exitAt ⟨-50, 0, 0⟩ 0))
    (hd : Vehicle.distanceToTarget lot v (Target.exitAt ⟨-50, 0, 0⟩ 0) < 1) :
    (v.update dt lot dep).1.state = VState.parked ∧
    (v.update dt lot dep).1.pos = ⟨-50, 0, 0⟩ ∧
    (v.update dt lot dep).1.rot = 0 ∧
    (v.update dt lot dep).2 = lot ∧
    (updateStats [(v.update dt lot dep).1] prev).parkedVehicles = 1 ∧
    (updateStats [(v.update dt lot dep).1] prev).occupiedSpaces = 1 := by
  rw [update_moving v lot dt dep hs,
    updateMoving_park v lot dt (Target.exitAt ⟨-50, 0, 0⟩ 0) ht hd]
  refine ⟨rfl, rfl, rfl, ?_, ?_, ?_⟩
  · exact setSpaceOccupied_foreign lot (some (Target.exitAt ⟨-50, 0, 0⟩ 0)) true
      (Or.inr (Or.inl ⟨_, _, rfl⟩))
  · simp [updateStats, statsTally, Vehicle.isParked]
  · simp [updateStats, statsTally, Vehicle.isParked]

/-- A departed vehicle close to the point the buggy branch actually tests. -/
def c10VehW : Vehicle :=
  ⟨VType.car, ⟨-1/2, 0, 0⟩, 0, VState.moving, some (Target.exitAt ⟨-50, 0, 0⟩ 0), 0, 0⟩

theorem c10VehW_buggyDist :
    Vehicle.distanceToTarget c2Lot c10VehW (Target.exitAt ⟨-50, 0, 0⟩ 0) = 1/2 := by
  have hdir : Vehicle.dirToTarget c2Lot c10VehW (Target.exitAt ⟨-50, 0, 0⟩ 0) =
      ⟨-1, 0, 0⟩ := by
    unfold Vehicle.dirToTarget
    have hsub : (targetPosition c2Lot (Target.exitAt ⟨-50, 0, 0⟩ 0)).sub c10VehW.pos =
        ⟨-99/2, 0, 0⟩ := by
      show (⟨-50, 0, 0⟩ : Vec3).sub ⟨-1/2, 0, 0⟩ = ⟨-99/2, 0, 0⟩
      ext <;> norm_num [Vec3.sub]
    rw [hsub, normalize_xNeg (by norm_num : (-99/2 : ℝ) < 0)]
  unfold Vehicle.distanceToTarget
  rw [hdir]
  show Vec3.distanceTo ⟨-1/2, 0, 0⟩ ⟨-1, 0, 0⟩ = 1/2
  rw [distanceTo_xAxis]
  norm_num

/-- Witness for the amended C10 theorem: the concrete departed vehicle whose
aliased distance is 0.5 parks at the exit and is counted in the snapshot. -/
theorem exit_snap_parks_witness :
    c10VehW.state = VState.moving ∧
    c10VehW.target = some (Target.exitAt ⟨-50, 0, 0⟩ 0) ∧
    Vehicle.distanceToTarget c2Lot c10VehW (Target.exitAt ⟨-50, 0, 0⟩ 0) < 1 ∧
    (c10VehW.update 1 c2Lot false).1.state = VState.parked ∧
    (c10VehW.update 1 c2Lot false).1.pos = ⟨-50, 0, 0⟩ ∧
    (updateStats [(c10VehW.update 1 c2Lot false).1] c2Stats0).parkedVehicles = 1 := by
  have hd : Vehicle.distanceToTarget c2Lot c10VehW (Target.exitAt ⟨-50, 0, 0⟩ 0) < 1 := by
    rw [c10VehW_buggyDist]
    norm_num
  have h := exit_snap_parks c10VehW c2Lot 1 false c2Stats0 rfl rfl hd
  exact ⟨rfl, rfl, hd, h.1, h.2.1, h.2.2.2.2.1⟩

/-! ### C1: steering versus movement direction -/

/-- Componentwise negation of a vector. -/
def Vec3.neg (v : Vec3) : Vec3 := ⟨-v.x, -v.y, -v.z⟩

instance : Neg Vec3 := ⟨Vec3.neg⟩

@[simp] theorem Vec3.neg_x (v : Vec3) : (-v).x = -v.x := rfl

@[simp] theorem Vec3.neg_y (v : Vec3) : (-v).y = -v.y := rfl

@[simp] theorem Vec3.neg_z (v : Vec3) : (-v).z = -v.z := rfl

/-- The movement axis `(0,0,-1)` rotated by a heading is the exact reverse of
the steered axis `(0,0,1)` rotated by the same heading. -/
theorem rotateY_negUnitZ_neg (θ : ℝ) :
    Vec3.rotateY θ ⟨0, 0, -1⟩ = - Vec3.rotateY θ ⟨0, 0, 1⟩ := by
  ext <;> simp [Vec3.rotateY]

theorem turnSpeed_nonneg (v : Vehicle) : 0 ≤ v.turnSpeed := by
  unfold Vehicle.turnSpeed
  positivity

/-- The clamped turn never exceeds `turnSpeed × dt` in magnitude. -/
theorem abs_turnAmount_le (lot : ParkingLot) (v : Vehicle) (t : Target) (dt : ℝ)
    (hdt : 0 ≤ dt) : |Vehicle.turnAmount lot v t dt| ≤ v.turnSpeed * dt := by
  unfold Vehicle.turnAmount
  have hts : 0 ≤ v.turnSpeed * dt := mul_nonneg (turnSpeed_nonneg v) hdt
  have h2 : 0 ≤ min |Vehicle.angleDiff lot v t| (v.turnSpeed * dt) :=
    le_min (abs_nonneg _) hts
  have h1 : |jsign (Vehicle.angleDiff lot v t)| ≤ 1 := by
    unfold jsign
    split
    · norm_num
    · split <;> norm_num
  rw [abs_mul, abs_of_nonneg h2]
  calc min |Vehicle.angleDiff lot v t| (v.turnSpeed * dt) * |jsign (Vehicle.angleDiff lot v t)|
      ≤ min |Vehicle.angleDiff lot v t| (v.turnSpeed * dt) * 1 :=
        mul_le_mul_of_nonneg_left h1 h2
    _ = min |Vehicle.angleDiff lot v t| (v.turnSpeed * dt) := mul_one _
    _ ≤ v.turnSpeed * dt := min_le_right _ _

/-- The turn is taken in the shorter direction: the residual signed angle
after the turn never exceeds the original one in magnitude. -/
theorem abs_residual_le (lot : ParkingLot) (v : Vehicle) (t : Target) (dt : ℝ)
    (hdt : 0 ≤ dt) :
    |Vehicle.angleDiff lot v t - Vehicle.turnAmount lot v t dt| ≤
      |Vehicle.angleDiff lot v t| := by
  unfold Vehicle.turnAmount
  have hts : 0 ≤ v.turnSpeed * dt := mul_nonneg (turnSpeed_nonneg v) hdt
  rcases lt_trichotomy (Vehicle.angleDiff lot v t) 0 with hneg | hzero | hpos
  · have hj : jsign (Vehicle.angleDiff lot v t) = -1 := by
      unfold jsign
      rw [if_neg (by linarith), if_pos hneg]
    have habs : |Vehicle.angleDiff lot v t| = -Vehicle.angleDiff lot v t := abs_of_neg hneg
    rw [hj, habs]
    have hmin1 : min (-Vehicle.angleDiff lot v t) (v.turnSpeed * dt) ≤
        -Vehicle.angleDiff lot v t := min_le_left _ _
    have hmin0 : 0 ≤ min (-Vehicle.angleDiff lot v t) (v.turnSpeed * dt) :=
      le_min (by linarith) hts
    rw [abs_le]
    constructor
    · linarith
    · linarith
  · rw [hzero]
    simp
  · have hj : jsign (Vehicle.angleDiff lot v t) = 1 := by
      unfold jsign
      rw [if_pos hpos]
    have habs : |Vehicle.angleDiff lot v t| = Vehicle.angleDiff lot v t := abs_of_pos hpos
    rw [hj, habs]
    have hmin1 : min (Vehicle.angleDiff lot v t) (v.turnSpeed * dt) ≤
        Vehicle.angleDiff lot v t := min_le_left _ _
    have hmin0 : 0 ≤ min (Vehicle.angleDiff lot v t) (v.turnSpeed * dt) :=
      le_min (le_of_lt hpos) hts
    rw [abs_le]
    constructor
    · linarith
    · linarith

/-- C1 (amended): one tick of a moving vehicle with a target — when the code's
(aliased) branch distance is at least 1, so no snap occurs — rotates the
heading by the clamped signed angle toward the planar direction to the target
(|turn| ≤ turnSpeed × dt, in the shorter direction: the residual angle does
not grow), and then advances the position by the updated speed × dt along the
`-z` axis rotated by the updated heading, which is the exact *reverse* of the
`+z` heading vector being steered toward the target; the state stays `moving`
and the allocator is untouched. -/
theorem updateMoving_turn_and_advance (v : Vehicle) (lot : ParkingLot) (t : Target) (dt : ℝ)
    (hs : v.state = VState.moving) (ht : v.target = some t) (hdt : 0 ≤ dt)
    (hd1 : ¬ Vehicle.distanceToTarget lot v t < 1) :
    (v.update dt lot false).1.rot = v.rot + Vehicle.turnAmount lot v t dt ∧
    |Vehicle.turnAmount lot v t dt| ≤ v.turnSpeed * dt ∧
    |Vehicle.angleDiff lot v t - Vehicle.turnAmount lot v t dt| ≤
      |Vehicle.angleDiff lot v t| ∧
    (v.update dt lot false).1.pos = v.pos + ((v.update dt lot false).1.speed * dt) •
      Vec3.rotateY ((v.update dt lot false).1.rot) ⟨0, 0, -1⟩ ∧
    Vec3.rotateY ((v.update dt lot false).1.rot) ⟨0, 0, -1⟩ =
      - Vec3.rotateY ((v.update dt lot false).1.rot) ⟨0, 0, 1⟩ ∧
    (v.update dt lot false).1.state = VState.moving ∧
    (v.update dt lot false).2 = lot := by
  rw [update_moving v lot dt false hs]
  by_cases hd5 : Vehicle.distanceToTarget lot v t < 5
  · rw [updateMoving_decel v lot dt t ht hd1 hd5]
    exact ⟨rfl, abs_turnAmount_le lot v t dt hdt, abs_residual_le lot v t dt hdt, rfl,
      rotateY_negUnitZ_neg _, hs, rfl⟩
  · rw [updateMoving_accel v lot dt t ht hd1 hd5]
    exact ⟨rfl, abs_turnAmount_le lot v t dt hdt, abs_residual_le lot v t dt hdt, rfl,
      rotateY_negUnitZ_neg _, hs, rfl⟩

/-- A stopped vehicle perfectly aligned with its target, 6 units behind it. -/
def c1Veh : Vehicle :=
  ⟨VType.car, ⟨0, 0, -13⟩, 0, VState.moving, some (Target.lot 0), 0, 0⟩

/-- Normalising a vector pointing up the z-axis. -/
theorem normalize_zPos {z : ℝ} (hz : 0 < z) :
    Vec3.normalize ⟨0, 0, z⟩ = ⟨0, 0, 1⟩ := by
  have hlen : Vec3.length ⟨0, 0, z⟩ = z := by
    show Real.sqrt ((0 : ℝ) ^ 2 + (0 : ℝ) ^ 2 + z ^ 2) = z
    rw [show ((0 : ℝ) ^ 2 + (0 : ℝ) ^ 2 + z ^ 2) = z ^ 2 by ring]
    exact Real.sqrt_sq (by linarith)
  unfold Vec3.normalize
  rw [hlen]
  unfold jsOrReal
  rw [if_neg (by linarith : ¬(z : ℝ) = 0)]
  ext
  · simp
  · simp
  · show 1 / z * z = 1
    rw [div_mul_eq_mul_div, one_mul, div_self (by linarith : (z : ℝ) ≠ 0)]

theorem c1Veh_dir : Vehicle.dirToTarget c2Lot c1Veh (Target.lot 0) = ⟨0, 0, 1⟩ := by
  unfold Vehicle.dirToTarget
  rw [c2_targetPos]
  have hsub : (⟨0, 0, -7⟩ : Vec3).sub c1Veh.pos = ⟨0, 0, 6⟩ := by
    show (⟨0, 0, -7⟩ : Vec3).sub ⟨0, 0, -13⟩ = ⟨0, 0, 6⟩
    ext <;> norm_num [Vec3.sub]
  rw [hsub, normalize_zPos (by norm_num : (0 : ℝ) < 6)]

theorem c1Veh_angle : Vehicle.angleDiff c2Lot c1Veh (Target.lot 0) = 0 := by
  unfold Vehicle.angleDiff
  rw [c1Veh_dir]
  have hcur : Vehicle.currentDirection c1Veh = ⟨0, 0, 1⟩ := by
    unfold Vehicle.currentDirection
    show Vec3.rotateY 0 ⟨0, 0, 1⟩ = ⟨0, 0, 1⟩
    rw [Vec3.rotateY_unitZ]
    ext <;> simp
  rw [hcur]
  rw [show ((⟨0, 0, 1⟩ : Vec3).x * (⟨0, 0, 1⟩ : Vec3).z -
      (⟨0, 0, 1⟩ : Vec3).z * (⟨0, 0, 1⟩ : Vec3).x : ℝ) = 0 from by norm_num]
  rw [show ((⟨0, 0, 1⟩ : Vec3).x * (⟨0, 0, 1⟩ : Vec3).x +
      (⟨0, 0, 1⟩ : Vec3).z * (⟨0, 0, 1⟩ : Vec3).z : ℝ) = 1 from by norm_num]
  exact atan2_zero_one

theorem c1Veh_turn : Vehicle.turnAmount c2Lot c1Veh (Target.lot 0) 1 = 0 := by
  unfold Vehicle.turnAmount
  rw [c1Veh_angle]
  simp

theorem c1Veh_buggyDist : Vehicle.distanceToTarget c2Lot c1Veh (Target.lot 0) = 14 := by
  unfold Vehicle.distanceToTarget
  rw [c1Veh_dir]
  show Vec3.distanceTo ⟨0, 0, -13⟩ ⟨0, 0, 1⟩ = 14
  rw [distanceTo_zAxis]
  norm_num

theorem c1Veh_update : (c1Veh.update 1 c2Lot false).1 =
    ⟨VType.car, ⟨0, 0, -15⟩, 0, VState.moving, some (Target.lot 0), 0, 2⟩ := by
  rw [update_moving c1Veh c2Lot 1 false rfl,
    updateMoving_accel c1Veh c2Lot 1 (Target.lot 0) rfl
      (by rw [c1Veh_buggyDist]; norm_num) (by rw [c1Veh_buggyDist]; norm_num)]
  have hrotv : c1Veh.rot + Vehicle.turnAmount c2Lot c1Veh (Target.lot 0) 1 = 0 := by
    rw [c1Veh_turn]
    show (0 : ℝ) + 0 = 0
    norm_num
  have hspeedv : min (c1Veh.speed + c1Veh.acceleration * 1) c1Veh.maxSpeed = 2 := by
    rw [show c1Veh.maxSpeed = 5 from rfl]
    show min ((0 : ℝ) + 2 * 1) 5 = 2
    norm_num
  show ({ c1Veh with
      rot := c1Veh.rot + Vehicle.turnAmount c2Lot c1Veh (Target.lot 0) 1
      speed := min (c1Veh.speed + c1Veh.acceleration * 1) c1Veh.maxSpeed
      pos := c1Veh.pos + (min (c1Veh.speed + c1Veh.acceleration * 1) c1Veh.maxSpeed * 1) •
        Vec3.rotateY (c1Veh.rot + Vehicle.turnAmount c2Lot c1Veh (Target.lot 0) 1)
          ⟨0, 0, -1⟩ } : Vehicle) = _
  rw [hrotv, hspeedv]
  have hposv : c1Veh.pos + ((2 : ℝ) * 1) • Vec3.rotateY 0 ⟨0, 0, -1⟩ = ⟨0, 0, -15⟩ := by
    rw [Vec3.rotateY_negUnitZ]
    show (⟨0, 0, -13⟩ : Vec3) + ((2 : ℝ) * 1) • (⟨-Real.sin 0, 0, -Real.cos 0⟩ : Vec3) =
      ⟨0, 0, -15⟩
    ext <;> simp <;> norm_num
  rw [hposv]
  rfl

/-- C1 (counterexample): the vehicle aligned with and 6 ≥ 1 units behind its
target needs no turn (signed angle 0), yet the tick moves it from `z = -13` to
`z = -15`, directly away from the target at `z = -7`; advancing along the
heading steered toward the target would have put it at `z = -11`.  The heading
steered toward the target is therefore not the heading along which the
position advances, and the angle between movement direction and target
direction does not shrink. -/
theorem c1_moves_opposite_to_steered_heading :
    Vec3.distanceTo c1Veh.pos (targetPosition c2Lot (Target.lot 0)) = 6 ∧
    Vehicle.angleDiff c2Lot c1Veh (Target.lot 0) = 0 ∧
    (c1Veh.update 1 c2Lot false).1 =
      ⟨VType.car, ⟨0, 0, -15⟩, 0, VState.moving, some (Target.lot 0), 0, 2⟩ ∧
    c1Veh.pos + ((c1Veh.update 1 c2Lot false).1.speed * 1) •
      Vec3.rotateY ((c1Veh.update 1 c2Lot false).1.rot) ⟨0, 0, 1⟩ = ⟨0, 0, -11⟩ ∧
    (c1Veh.update 1 c2Lot false).1.pos ≠
      c1Veh.pos + ((c1Veh.update 1 c2Lot false).1.speed * 1) •
        Vec3.rotateY ((c1Veh.update 1 c2Lot false).1.rot) ⟨0, 0, 1⟩ := by
  have hdist : Vec3.distanceTo c1Veh.pos (targetPosition c2Lot (Target.lot 0)) = 6 := by
    rw [c2_targetPos]
    show Vec3.distanceTo ⟨0, 0, -13⟩ ⟨0, 0, -7⟩ = 6
    rw [distanceTo_zAxis]
    norm_num
  have hclaimed : c1Veh.pos + ((c1Veh.update 1 c2Lot false).1.speed * 1) •
      Vec3.rotateY ((c1Veh.update 1 c2Lot false).1.rot) ⟨0, 0, 1⟩ = ⟨0, 0, -11⟩ := by
    rw [c1Veh_update]
    show (⟨0, 0, -13⟩ : Vec3) + ((2 : ℝ) * 1) • Vec3.rotateY 0 ⟨0, 0, 1⟩ = ⟨0, 0, -11⟩
    rw [Vec3.rotateY_unitZ]
    ext <;> simp <;> norm_num
  refine ⟨hdist, c1Veh_angle, c1Veh_update, hclaimed, ?_⟩
  rw [hclaimed, c1Veh_update]
  intro h
  have hz := congrArg Vec3.z h
  norm_num at hz

/-- Witness for the amended C1 theorem at the concrete aligned vehicle. -/
theorem updateMoving_turn_and_advance_witness :
    c1Veh.state = VState.moving ∧ c1Veh.target = some (Target.lot 0) ∧
    ((0 : ℝ) ≤ 1) ∧ (¬ Vehicle.distanceToTarget c2Lot c1Veh (Target.lot 0) < 1) ∧
    (c1Veh.update 1 c2Lot false).1.rot =
      c1Veh.rot + Vehicle.turnAmount c2Lot c1Veh (Target.lot 0) 1 ∧
    (c1Veh.update 1 c2Lot false).1.pos =
      c1Veh.pos + ((c1Veh.update 1 c2Lot false).1.speed * 1) •
        Vec3.rotateY ((c1Veh.update 1 c2Lot false).1.rot) ⟨0, 0, -1⟩ ∧
    (c1Veh.update 1 c2Lot false).2 = c2Lot := by
  have hd1 : ¬ Vehicle.distanceToTarget c2Lot c1Veh (Target.lot 0) < 1 := by
    rw [c1Veh_buggyDist]
    norm_num
  have h := updateMoving_turn_and_advance c1Veh c2Lot (Target.lot 0) 1 rfl rfl
    (by norm_num) hd1
  exact ⟨rfl, rfl, by norm_num, hd1, h.1, h.2.2.2.1, h.2.2.2.2.2.2⟩

end

end HappyParking
